import Mathlib

/-!
# A shallow embedding of the tslox interpreter

This file embeds the pipeline of the `tslox` interpreter — lexer, parser,
resolver and tree-walking evaluator — as executable Lean definitions, and
proves properties of them.

Sources embedded (the repository keeps several historical versions of some
files; each definition names the exact file it is translated from):

 * lexer          : `src/unnamed/part_006` (the current `lexer.ts`)
 * parser         : `src/unnamed/part_005`, first file (the current `parser.ts`)
 * resolver       : `src/resolver.ts`
 * interpreter    : `src/interpreter.ts`
 * AST types      : `src/expr.ts`, `src/stmt.ts`
 * driver         : `src/unnamed/part_007` (the current `main.ts`)

Host-language (TypeScript/JavaScript) behaviour that the source relies on is
modelled explicitly: `Map` insertion-order semantics as association lists,
`Array.prototype.findIndex` scanning from index `0`, exceptions as `Except`
values whose side effects performed before the throw persist, and a missing
visitor method (a JS `TypeError` at run time) as a distinguished host error.
JS runtime values are a tagged sum; numbers are modelled as `ℚ` (the concrete
literals appearing in the verified programs are exactly representable as IEEE
doubles, so `ℚ` arithmetic agrees with the host on them).  Output is modelled
as the list of values passed to the `print` native; console stringification is
an external collaborator (spec §1) and is not modelled.
-/

namespace TSLox

/-! ## Locations, errors, token types (`src/types.ts`, `src/error.ts`,
`src/unnamed/part_006`) -/

structure TokenLocation where
  row : Nat
  col : Nat
deriving Repr, DecidableEq

/-- The two `TSLoxError` kinds, `'Syntax' | 'Runtime'` (`src/error.ts`). -/
inductive ErrType where
  | syntaxE
  | runtimeE
deriving Repr, DecidableEq

/-- A `TSLoxError` (`src/error.ts`): kind, location and raw message (the
`"{row}:{col}: {type} Error: {msg}"` formatting is done by the console
reporter, an external collaborator). -/
structure LoxErr where
  type : ErrType
  location : TokenLocation
  message : String
deriving Repr, DecidableEq

/-- Token literal payloads: `literalValue?: string | number`
(`src/unnamed/part_006`). -/
inductive LitVal where
  | str (s : String)
  | num (q : ℚ)
deriving Repr, DecidableEq

/-- `enum TokenType` from `src/unnamed/part_006`. -/
inductive TokenType where
  | eof
  | openParen
  | closeParen
  | slash
  | lt
  | gt
  | lte
  | gte
  | bang
  | bangEq
  | eq
  | eqEq
  | plus
  | plusPlus
  | plusEq
  | minusEq
  | mulEq
  | slashEq
  | minus
  | minusMinus
  | caret
  | mul
  | openBrace
  | closeBrace
  | stringT
  | numberT
  | identifier
  | forKw
  | falseKw
  | trueKw
  | semicolon
  | noneKw
  | questionMark
  | colon
  | letKw
  | comma
  | ifKw
  | elseKw
  | whileKw
  | functionKw
  | returnKw
  | classKw
  | newKw
  | dot
  | thisKw
  | extendsKw
  | constructorKw
  | superKw
deriving Repr, DecidableEq

/-- `type Token` (`src/unnamed/part_006`). -/
structure Token where
  type : TokenType
  literalValue : Option LitVal := none
  location : TokenLocation
deriving Repr, DecidableEq

/-- `RESERVED_KEYWORDS` (`src/unnamed/part_006`): the map keys are the enum
*values*, so the boolean keywords are the upper-case source strings `TRUE` and
`FALSE`, and `constructor` maps to `IDENTIFIER`. -/
def reservedKeywords (s : String) : Option TokenType :=
  if s = "for" then some .forKw
  else if s = "TRUE" then some .trueKw
  else if s = "FALSE" then some .falseKw
  else if s = "none" then some .noneKw
  else if s = "let" then some .letKw
  else if s = "if" then some .ifKw
  else if s = "else" then some .elseKw
  else if s = "while" then some .whileKw
  else if s = "function" then some .functionKw
  else if s = "return" then some .returnKw
  else if s = "class" then some .classKw
  else if s = "new" then some .newKw
  else if s = "this" then some .thisKw
  else if s = "extends" then some .extendsKw
  else if s = "constructor" then some .identifier
  else if s = "super" then some .superKw
  else none

/-! ## Lexer (`src/unnamed/part_006`, `class Lexer`)

`String.charAt` past the end returns `''` in JS; we model characters read from
the source as `Option Char`, with `none` playing the role of `''` (it compares
unequal to every real character, is not a digit, and is not alphanumeric,
exactly as `''` behaves in the source's comparisons and regexes). -/

structure LexState where
  source : List Char
  start : Nat
  current : Nat
  row : Nat
  col : Nat
  tokens : List Token
  errors : List LoxErr
deriving Repr

/-- `Lexer.peek`: `source.charAt(current)`. -/
def peekL (st : LexState) : Option Char :=
  st.source[st.current]?

/-- `Lexer.peekNext`. -/
def peekNextL (st : LexState) : Option Char :=
  if st.current < st.source.length then st.source[st.current + 1]? else none

/-- `Lexer.advance`: increments `col`, returns `charAt(current)` and
increments `current`. -/
def advanceL (st : LexState) : Option Char × LexState :=
  (st.source[st.current]?,
    { st with col := st.col + 1, current := st.current + 1 })

/-- `Lexer.isEOF`. -/
def isEOFL (st : LexState) : Bool :=
  st.source.length ≤ st.current

/-- `Lexer.curLocation`. -/
def curLocationL (st : LexState) : TokenLocation :=
  ⟨st.row, st.col⟩

/-- `Lexer.addToken`. -/
def addTokenL (st : LexState) (t : Token) : LexState :=
  { st with tokens := st.tokens ++ [t] }

/-- `Lexer.match`. -/
def matchL (c : Char) (st : LexState) : Bool × LexState :=
  if isEOFL st then (false, st)
  else if peekL st = some c then (true, (advanceL st).2)
  else (false, st)

/-- `/\d/.test(c)`; the regex does not match the empty string. -/
def isDigitC : Option Char → Bool
  | some c => c.isDigit
  | none => false

/-- `/[_a-zA-Z0-9]/.test(c)`. -/
def isAlphaNumericC : Option Char → Bool
  | some c => c.isDigit || c.isAlpha || c = '_'
  | none => false

/-- `source.substring(a, b)` for `a ≤ b`. -/
def substringL (cs : List Char) (a b : Nat) : String :=
  String.mk ((cs.drop a).take (b - a))

/-- The scanning loop of `Lexer.eatString`:
`while (peek() !== '"' && !isEOF()) { if (peek() === '\n') {row++; col=1}; advance(); }`.
The loop advances `current` at every step, so `source.length + 1` fuel always
suffices; the fuel is threaded only to make the recursion structural. -/
def scanStringLoop : Nat → LexState → LexState
  | 0, st => st
  | f + 1, st =>
    if peekL st ≠ some '"' ∧ ¬ isEOFL st then
      let st := if peekL st = some '\n' then { st with row := st.row + 1, col := 1 } else st
      scanStringLoop f (advanceL st).2
    else st

/-- `Lexer.eatString` (called after the opening quote was consumed). -/
def eatString (st : LexState) : LexState :=
  let startCol := st.col - 1
  let st := scanStringLoop (st.source.length + 1) st
  if isEOFL st then
    { st with errors := st.errors ++ [⟨.syntaxE, curLocationL st, "unterminated string literal"⟩] }
  else
    let st := (advanceL st).2
    let value := substringL st.source (st.start + 1) (st.current - 1)
    addTokenL st { type := .stringT, literalValue := some (.str value),
                   location := ⟨st.row, startCol⟩ }

/-- A digit-scanning loop of `Lexer.eatNumber`:
`while (isDigit(peek()) && !isEOF()) advance();`. -/
def scanDigits : Nat → LexState → LexState
  | 0, st => st
  | f + 1, st =>
    if isDigitC (peekL st) ∧ ¬ isEOFL st then scanDigits f (advanceL st).2 else st

/-- The scanning loop of `Lexer.eatIdentifier`. -/
def scanAlphaNumeric : Nat → LexState → LexState
  | 0, st => st
  | f + 1, st =>
    if isAlphaNumericC (peekL st) ∧ ¬ isEOFL st then scanAlphaNumeric f (advanceL st).2 else st

/-- The loop skipping a `//` or `#` line comment:
`while (peek() !== '\n' && !isEOF()) advance();`. -/
def scanLineComment : Nat → LexState → LexState
  | 0, st => st
  | f + 1, st =>
    if peekL st ≠ some '\n' ∧ ¬ isEOFL st then scanLineComment f (advanceL st).2 else st

/-- The block-comment loop of `Lexer.lex`:
`while (!(peek() === '*' && peekNext() === '/')) { if (peek() === '\n') row++; advance(); }`.
Unlike every other scanning loop in the lexer, this loop does **not** test
`isEOF()`, so it has no a-priori bound; it is the one loop that genuinely
needs fuel, and `none` means the loop was still running when the fuel ran
out. -/
def skipBlockComment : Nat → LexState → Option LexState
  | 0, _ => none
  | f + 1, st =>
    if ¬ (peekL st = some '*' ∧ peekNextL st = some '/') then
      let st := if peekL st = some '\n' then { st with row := st.row + 1 } else st
      skipBlockComment f (advanceL st).2
    else some st

/-- The leading digit run of a character list (what `parseInt` consumes when
the string starts with a digit, as every numeric lexeme here does). -/
def leadingDigits : List Char → List Char
  | [] => []
  | c :: cs => if c.isDigit then c :: leadingDigits cs else []

def digitsVal (ds : List Char) : Nat :=
  ds.foldl (fun a c => a * 10 + (c.toNat - 48)) 0

/-- JS `parseInt` on a digit-leading string: the numeric value of the leading
digit run only — everything from the first non-digit (in particular a decimal
point) on is discarded. -/
def jsParseInt (cs : List Char) : ℚ :=
  (digitsVal (leadingDigits cs) : ℚ)

/-- `Lexer.eatNumber` (called after the first digit was consumed).  Stores
`parseInt(lexeme)` as the token's `literalValue`. -/
def eatNumber (st : LexState) : LexState :=
  let startCol := st.col - 1
  let st := scanDigits (st.source.length + 1) st
  let st :=
    if peekL st = some '.' ∧ isDigitC (peekNextL st) then (advanceL st).2 else st
  let st := scanDigits (st.source.length + 1) st
  let lexeme := (st.source.drop st.start).take (st.current - st.start)
  addTokenL st { type := .numberT, literalValue := some (.num (jsParseInt lexeme)),
                 location := ⟨st.row, startCol⟩ }

/-- `Lexer.eatIdentifier` (called after the first character was consumed). -/
def eatIdentifier (st : LexState) : LexState :=
  let startCol := st.col - 1
  let st := scanAlphaNumeric (st.source.length + 1) st
  let lexeme := substringL st.source st.start st.current
  let tokenType := (reservedKeywords lexeme).getD .identifier
  addTokenL st { type := tokenType, literalValue := some (.str lexeme),
                 location := ⟨st.row, startCol⟩ }

/-- The main `while (!isEOF())` loop of `Lexer.lex`, one switch dispatch per
iteration.  `none` means the fuel ran out (which, for the block-comment case,
models the source's non-terminating loop). -/
def lexLoop : Nat → LexState → Option LexState
  | 0, _ => none
  | f + 1, st =>
    if isEOFL st then some st
    else
      let st := { st with start := st.current }
      match advanceL st with
      | (none, st) => lexLoop f st
      | (some c, st) =>
        if c = '\t' ∨ c = '\r' ∨ c = ' ' then lexLoop f st
        else if c = ';' then
          lexLoop f (addTokenL st { type := .semicolon, location := curLocationL st })
        else if c = '/' then
          let (m, st) := matchL '/' st
          if m then lexLoop f (scanLineComment (st.source.length + 1) st)
          else
            let (m, st) := matchL '=' st
            if m then lexLoop f (addTokenL st { type := .slashEq, location := curLocationL st })
            else
              let (m, st) := matchL '*' st
              if m then
                match skipBlockComment f st with
                | none => none
                | some st => lexLoop f (advanceL (advanceL st).2).2
              else lexLoop f (addTokenL st { type := .slash, location := curLocationL st })
        else if c = '#' then lexLoop f (scanLineComment (st.source.length + 1) st)
        else if c = '\n' then lexLoop f { st with row := st.row + 1, col := 1 }
        else if c = '\x7b' then
          lexLoop f (addTokenL st { type := .openBrace, location := curLocationL st })
        else if c = '\x7d' then
          lexLoop f (addTokenL st { type := .closeBrace, location := curLocationL st })
        else if c = '(' then
          lexLoop f (addTokenL st { type := .openParen, location := curLocationL st })
        else if c = ')' then
          lexLoop f (addTokenL st { type := .closeParen, location := curLocationL st })
        else if c = '<' then
          let (m, st) := matchL '=' st
          lexLoop f (addTokenL st { type := if m then .lte else .lt, location := curLocationL st })
        else if c = '>' then
          let (m, st) := matchL '=' st
          lexLoop f (addTokenL st { type := if m then .gte else .gt, location := curLocationL st })
        else if c = '=' then
          let (m, st) := matchL '=' st
          lexLoop f (addTokenL st { type := if m then .eqEq else .eq, location := curLocationL st })
        else if c = '^' then
          lexLoop f (addTokenL st { type := .caret, location := curLocationL st })
        else if c = '!' then
          let (m, st) := matchL '=' st
          lexLoop f (addTokenL st { type := if m then .bangEq else .bang, location := curLocationL st })
        else if c = '?' then
          lexLoop f (addTokenL st { type := .questionMark, location := curLocationL st })
        else if c = ':' then
          lexLoop f (addTokenL st { type := .colon, location := curLocationL st })
        else if c = ',' then
          lexLoop f (addTokenL st { type := .comma, location := curLocationL st })
        else if c = '+' then
          let (m, st) := matchL '+' st
          if m then lexLoop f (addTokenL st { type := .plusPlus, location := curLocationL st })
          else
            let (m, st) := matchL '=' st
            if m then lexLoop f (addTokenL st { type := .plusEq, location := curLocationL st })
            else lexLoop f (addTokenL st { type := .plus, location := curLocationL st })
        else if c = '-' then
          let (m, st) := matchL '-' st
          if m then lexLoop f (addTokenL st { type := .minusMinus, location := curLocationL st })
          else
            let (m, st) := matchL '=' st
            if m then lexLoop f (addTokenL st { type := .minusEq, location := curLocationL st })
            else lexLoop f (addTokenL st { type := .minus, location := curLocationL st })
        else if c = '*' then
          let (m, st) := matchL '=' st
          lexLoop f (addTokenL st { type := if m then .mulEq else .mul, location := curLocationL st })
        else if c = '"' then lexLoop f (eatString st)
        else if c = '.' then
          lexLoop f (addTokenL st { type := .dot, location := curLocationL st })
        else if c.isDigit then lexLoop f (eatNumber st)
        else if isAlphaNumericC (some c) then lexLoop f (eatIdentifier st)
        else
          lexLoop f
            { st with errors := st.errors ++
                [⟨.syntaxE, curLocationL st, "unexpected token " ++ String.mk [c]⟩] }

/-- The initial lexer state: the constructor initialises all counters, and
`lex()` re-initialises `start`, `current`, `row`, `tokens` (but not `col`). -/
def initLexState (s : String) : LexState :=
  ⟨s.toList, 0, 0, 1, 1, [], []⟩

/-- `Lexer.lex`, fuel-indexed: runs the main loop, then appends the final
`EOF` token.  `none` means the loop was still running when the fuel ran out
(for any actually-terminating run a large enough fuel returns `some`). -/
def lexRun (fuel : Nat) (s : String) : Option (List Token) :=
  match lexLoop fuel (initLexState s) with
  | none => none
  | some st => some (addTokenL st { type := .eof, location := curLocationL st }).tokens

/-- The mathematical value of a decimal numeric lexeme (digits, optionally
followed by `.` and digits), stated from the spec's description of numeric
literals; this is the spec-side value that the round-trip property compares
the stored `literalValue` against. -/
def decimalLexemeValue (cs : List Char) : ℚ :=
  let intPart := leadingDigits cs
  let rest := cs.drop intPart.length
  match rest with
  | '.' :: fracChars =>
    let frac := leadingDigits fracChars
    (digitsVal intPart : ℚ) + (digitsVal frac : ℚ) / ((10 : ℚ) ^ frac.length)
  | _ => (digitsVal intPart : ℚ)

end TSLox

namespace TSLox

/-! ## AST (`src/expr.ts`, `src/stmt.ts`)

The source keys the resolver's bindings map by AST-node object identity.  We
make identity explicit: every `Literal` and `ThisExpression` node carries a
numeric id, assigned from a counter when the node is constructed (the parser
threads the counter; hand-built ASTs use distinct ids).  Two occurrences of
the same id denote the same object — the compound-assignment desugaring in
the parser genuinely shares one `Literal` node between the assignment's
lvalue and the synthesized binary's left operand, and the shared id models
that sharing. -/

inductive Expr where
  /-- `Literal` -/
  | lit (id : Nat) (value : Token)
  /-- `UnaryExpression`; `postOp` is the source's `isPostfix` flag. -/
  | unary (location : TokenLocation) (operator : Token) (expr : Expr) (postOp : Bool)
  /-- `BinaryExpression` -/
  | binary (location : TokenLocation) (leftExpr : Expr) (operator : Token) (rightExpr : Expr)
  /-- `TernaryExpression` -/
  | ternary (location : TokenLocation) (conditionalExpression truthyExpression falsyExpression : Expr)
  /-- `GroupingExpression` -/
  | grouping (location : TokenLocation) (expr : Expr)
  /-- `AssignmentExpression` (`lValue` is a `Literal` or an `InstanceGetExpression`) -/
  | assign (location : TokenLocation) (lValue : Expr) (rValue : Expr)
  /-- `FunctionCallExpression` -/
  | fnCall (location : TokenLocation) (calle : Expr) (args : List Expr)
  /-- `InstanceGetExpression`; `obj` is the source's `instance` field. -/
  | instGet (location : TokenLocation) (obj : Expr) (property : Token)
  /-- `ClassInstantiationExpression` -/
  | classInst (location : TokenLocation) (callExpression : Expr)
  /-- `ThisExpression` -/
  | thisE (id : Nat) (location : TokenLocation)
  /-- `SuperExpression` -/
  | superE (location : TokenLocation) (property : Token)
deriving Repr

/-- `Expression.location` (a `Literal`'s location is its token's location). -/
def Expr.location : Expr → TokenLocation
  | .lit _ value => value.location
  | .unary l .. => l
  | .binary l .. => l
  | .ternary l .. => l
  | .grouping l .. => l
  | .assign l .. => l
  | .fnCall l .. => l
  | .instGet l .. => l
  | .classInst l .. => l
  | .thisE _ l => l
  | .superE l _ => l

mutual

inductive Stmt where
  /-- `ExpressionStatement` -/
  | exprStmt (expression : Expr)
  /-- `VariableDeclarationStatement`; each declaration is
  `{identifier, initializer}` -/
  | varDecl (declarations : List (Token × Option Expr))
  /-- `BlockStatement` -/
  | block (statements : List Stmt)
  /-- `IfStatement` -/
  | ifS (condition : Expr) (trueStatement : Stmt) (falseStatement : Option Stmt)
  /-- `WhileStatement` -/
  | whileS (condition : Expr) (body : Stmt)
  /-- `FunctionDeclarationStatement` -/
  | funDecl (d : FunDeclRec)
  /-- `ReturnStatement` -/
  | ret (returnTokenLocation : TokenLocation) (returnExpr : Option Expr)
  /-- `ClassDeclarationStatement` -/
  | classDecl (className : Token) (methods : List FunDeclRec) (superClass : Option Expr)
deriving Repr

/-- The payload of a `FunctionDeclarationStatement` (name token, parameter
tokens, body block); classes hold a list of these as their methods. -/
inductive FunDeclRec where
  | mk (functionName : Token) (args : List Token) (body : List Stmt)
deriving Repr

end

def FunDeclRec.functionName : FunDeclRec → Token
  | .mk n _ _ => n

def FunDeclRec.args : FunDeclRec → List Token
  | .mk _ a _ => a

def FunDeclRec.body : FunDeclRec → List Stmt
  | .mk _ _ b => b

end TSLox

namespace TSLox

/-! ## Parser (`src/unnamed/part_005`, first file, `class Parser`)

The parser is a mutually recursive descent; recursion is made structural on a
fuel argument (`PErr.fuelOut` cannot arise in the verified runs).  Thrown
`TSLoxError`s are `PErr.loxE`; reading past the token array (a JS crash on
`undefined.type`) is `PErr.hostE`.  The exception monad sits *inside* the
state monad, so state changes made before a throw persist — as they do for a
JS exception — which is what `parse()`'s catch-and-synchronize relies on. -/

/-- The string value of a `TokenType` enum member (template literals
interpolate enum members as these strings). -/
def tokenTypeString : TokenType → String
  | .eof => "EOF"
  | .openParen => "("
  | .closeParen => ")"
  | .slash => "/"
  | .lt => "<"
  | .gt => ">"
  | .lte => "<="
  | .gte => ">="
  | .bang => "!"
  | .bangEq => "!="
  | .eq => "="
  | .eqEq => "=="
  | .plus => "+"
  | .plusPlus => "++"
  | .plusEq => "+="
  | .minusEq => "-="
  | .mulEq => "*="
  | .slashEq => "/="
  | .minus => "-"
  | .minusMinus => "--"
  | .caret => "^"
  | .mul => "*"
  | .openBrace => "\x7b"
  | .closeBrace => "\x7d"
  | .stringT => "string"
  | .numberT => "number"
  | .identifier => "identifier"
  | .forKw => "for"
  | .falseKw => "FALSE"
  | .trueKw => "TRUE"
  | .semicolon => ";"
  | .noneKw => "none"
  | .questionMark => "?"
  | .colon => ":"
  | .letKw => "let"
  | .comma => ","
  | .ifKw => "if"
  | .elseKw => "else"
  | .whileKw => "while"
  | .functionKw => "function"
  | .returnKw => "return"
  | .classKw => "class"
  | .newKw => "new"
  | .dot => "."
  | .thisKw => "this"
  | .extendsKw => "extends"
  | .constructorKw => "constructor"
  | .superKw => "super"

structure PState where
  tokens : List Token
  current : Nat
  nextId : Nat
  hasError : Bool
  reported : List LoxErr
deriving Repr

inductive PErr where
  | loxE (e : LoxErr)
  | hostE (msg : String)
  | fuelOut
deriving Repr, DecidableEq

abbrev PM (α : Type) := ExceptT PErr (StateM PState) α

/-- `Parser.curToken`: `tokens[current]` (reading past the array end is a JS
crash on the subsequent field access). -/
def curTokenP : PM Token := do
  let st ← get
  match st.tokens[st.current]? with
  | some t => pure t
  | none => throw (.hostE "curToken is undefined")

/-- `Parser.isEOF`. -/
def isEOFP : PM Bool := do
  pure ((← curTokenP).type == .eof)

/-- `Parser.peek`. -/
def peekP : PM (Option Token) := do
  if ← isEOFP then pure none else pure (some (← curTokenP))

/-- `Parser.advance`: `tokens[current++]`. -/
def advanceP : PM Token := do
  let st ← get
  set { st with current := st.current + 1 }
  match st.tokens[st.current]? with
  | some t => pure t
  | none => throw (.hostE "advance past end")

/-- `Parser.match(...tokenTypes)`. -/
def matchP (tokenTypes : List TokenType) : PM Bool := do
  match ← peekP with
  | some t =>
    if tokenTypes.contains t.type then do
      _ ← advanceP
      pure true
    else pure false
  | none => pure false

/-- `Parser.check`. -/
def checkP (ty : TokenType) : PM Bool := do
  pure ((← curTokenP).type == ty)

/-- `Parser.previous`: `tokens[current - 1]`. -/
def previousP : PM Token := do
  let st ← get
  if st.current = 0 then throw (.hostE "previous before start")
  else
    match st.tokens[st.current - 1]? with
    | some t => pure t
    | none => throw (.hostE "previous is undefined")

/-- `Parser.jumpBack`: `tokens[--current]` (only called right after a
successful `match`, so `current ≥ 1`). -/
def jumpBackP : PM Unit := do
  modify fun st => { st with current := st.current - 1 }

/-- `Parser.consume`. -/
def consumeP (ty : TokenType) (error : LoxErr) : PM Token := do
  if ¬ (← isEOFP) && (← curTokenP).type == ty then advanceP
  else throw (.loxE error)

/-- `new Literal(token)`, with a fresh node id. -/
def mkLitP (token : Token) : PM Expr := do
  let st ← get
  set { st with nextId := st.nextId + 1 }
  pure (.lit st.nextId token)

/-- `new ThisExpression(location)`, with a fresh node id. -/
def mkThisP (location : TokenLocation) : PM Expr := do
  let st ← get
  set { st with nextId := st.nextId + 1 }
  pure (.thisE st.nextId location)

/-- `Parser.consumeSemicolon`. -/
def consumeSemicolonP : PM Unit := do
  let c ← curTokenP
  _ ← consumeP .semicolon ⟨.syntaxE, c.location, "expected ; at end of statement"⟩
  pure ()

/-- Which expressions may appear as an lvalue:
`expr instanceof Literal && expr.value.type === IDENTIFIER || expr instanceof InstanceGetExpression`. -/
def isAssignable : Expr → Bool
  | .lit _ tok => tok.type == .identifier
  | .instGet .. => true
  | _ => false

mutual

/-- `Parser.ternary`. -/
def ternaryP : Nat → PM Expr
  | 0 => throw .fuelOut
  | f + 1 => do
    let startToken ← curTokenP
    let e ← equalityP f
    if ← matchP [.questionMark] then
      let truthyExpression ← ternaryP f
      let c ← curTokenP
      _ ← consumeP .colon ⟨.syntaxE, c.location, "expected :"⟩
      let falsyExpression ← ternaryP f
      pure (.ternary startToken.location e truthyExpression falsyExpression)
    else pure e

/-- `Parser.assignment`.  Note the `match` list: `EQ, PLUS_EQ, MINUS_EQ,
SLASH_EQ` — the source omits `MUL_EQ` here, so a `*=` token is never
consumed and the `MUL_EQ` case of the switch below is unreachable. -/
def assignmentP : Nat → PM Expr
  | 0 => throw .fuelOut
  | f + 1 => do
    let startToken ← curTokenP
    let e ← ternaryP f
    if ← matchP [.eq, .plusEq, .minusEq, .slashEq] then
      if isAssignable e then
        let operator ← previousP
        let rValue ← assignmentP f
        let rValueLocation := rValue.location
        let buildOpAssignmentExpression := fun (op : TokenType) =>
          Expr.assign startToken.location e
            (.binary rValueLocation e
              ⟨op, none, ⟨rValueLocation.row, rValueLocation.col + 1⟩⟩ rValue)
        match operator.type with
        | .eq => pure (.assign startToken.location e rValue)
        | .plusEq => pure (buildOpAssignmentExpression .plus)
        | .minusEq => pure (buildOpAssignmentExpression .minus)
        | .mulEq => pure (buildOpAssignmentExpression .mul)
        | .slashEq => pure (buildOpAssignmentExpression .slash)
        | _ => pure e
      else throw (.loxE ⟨.syntaxE, startToken.location, "invalid assignment expression"⟩)
    else pure e

/-- `Parser.equality` (loop body split out below). -/
def equalityP : Nat → PM Expr
  | 0 => throw .fuelOut
  | f + 1 => do
    let startToken ← curTokenP
    let e ← comparisonP f
    equalityLoopP f startToken e

def equalityLoopP : Nat → Token → Expr → PM Expr
  | 0, _, _ => throw .fuelOut
  | f + 1, startToken, e => do
    if ← matchP [.eqEq, .bangEq] then
      let operator ← previousP
      let rightExpr ← comparisonP f
      equalityLoopP f startToken (.binary startToken.location e operator rightExpr)
    else pure e

/-- `Parser.comparison`. -/
def comparisonP : Nat → PM Expr
  | 0 => throw .fuelOut
  | f + 1 => do
    let startToken ← curTokenP
    let e ← termP f
    comparisonLoopP f startToken e

def comparisonLoopP : Nat → Token → Expr → PM Expr
  | 0, _, _ => throw .fuelOut
  | f + 1, startToken, e => do
    if ← matchP [.gt, .lt, .gte, .lte] then
      let operator ← previousP
      let rightExpr ← termP f
      comparisonLoopP f startToken (.binary startToken.location e operator rightExpr)
    else pure e

/-- `Parser.term`. -/
def termP : Nat → PM Expr
  | 0 => throw .fuelOut
  | f + 1 => do
    let startToken ← curTokenP
    let e ← factorP f
    termLoopP f startToken e

def termLoopP : Nat → Token → Expr → PM Expr
  | 0, _, _ => throw .fuelOut
  | f + 1, startToken, e => do
    if ← matchP [.plus, .minus] then
      let operator ← previousP
      let rightExpr ← factorP f
      termLoopP f startToken (.binary startToken.location e operator rightExpr)
    else pure e

/-- `Parser.factor`. -/
def factorP : Nat → PM Expr
  | 0 => throw .fuelOut
  | f + 1 => do
    let startToken ← curTokenP
    let e ← powerP f
    factorLoopP f startToken e

def factorLoopP : Nat → Token → Expr → PM Expr
  | 0, _, _ => throw .fuelOut
  | f + 1, startToken, e => do
    if ← matchP [.slash, .mul] then
      let operator ← previousP
      let rightExpr ← powerP f
      factorLoopP f startToken (.binary startToken.location e operator rightExpr)
    else pure e

/-- `Parser.power`. -/
def powerP : Nat → PM Expr
  | 0 => throw .fuelOut
  | f + 1 => do
    let startToken ← curTokenP
    let e ← unaryP f
    powerLoopP f startToken e

def powerLoopP : Nat → Token → Expr → PM Expr
  | 0, _, _ => throw .fuelOut
  | f + 1, startToken, e => do
    if ← matchP [.caret] then
      let operator ← previousP
      let rightExpr ← unaryP f
      powerLoopP f startToken (.binary startToken.location e operator rightExpr)
    else pure e

/-- `Parser.unary`: a postfix `ident++` / `ident--` attempt (with `jumpBack`
on failure), then the standard prefix operators. -/
def unaryP : Nat → PM Expr
  | 0 => throw .fuelOut
  | f + 1 => do
    let post? ← do
      if ← matchP [.identifier] then
        let identifier ← previousP
        if ← matchP [.plusPlus, .minusMinus] then
          let operator ← previousP
          let l ← mkLitP identifier
          pure (some (Expr.unary operator.location operator l true))
        else do
          jumpBackP
          pure none
      else pure none
    match post? with
    | some e => pure e
    | none => do
      if ← matchP [.minus, .plus, .bang, .plusPlus, .minusMinus] then
        let operator ← previousP
        let rightExpr ← unaryP f
        pure (.unary operator.location operator rightExpr false)
      else classInstantiationP f

/-- `Parser.call`. -/
def callP : Nat → PM Expr
  | 0 => throw .fuelOut
  | f + 1 => do
    let calle ← primaryP f
    callLoopP f calle

def callLoopP : Nat → Expr → PM Expr
  | 0, _ => throw .fuelOut
  | f + 1, calle => do
    if ← matchP [.openParen] then
      let args ←
        if ¬ (← checkP .closeParen) then argsLoopP f []
        else pure []
      _ ← consumeP .closeParen ⟨.syntaxE, calle.location, "expected ) after function call"⟩
      callLoopP f (.fnCall calle.location calle args)
    else
      if ← matchP [.dot] then
        let c ← curTokenP
        let property ← consumeP .identifier
          ⟨.syntaxE, c.location, "expected property name after . operator"⟩
        callLoopP f (.instGet calle.location calle property)
      else pure calle

/-- The `do { args.push(this.expression()) } while (this.match(COMMA))`
loop inside `Parser.call`. -/
def argsLoopP : Nat → List Expr → PM (List Expr)
  | 0, _ => throw .fuelOut
  | f + 1, acc => do
    let e ← expressionP f
    if ← matchP [.comma] then argsLoopP f (acc ++ [e]) else pure (acc ++ [e])

/-- `Parser.classInstantiation`. -/
def classInstantiationP : Nat → PM Expr
  | 0 => throw .fuelOut
  | f + 1 => do
    let startTokenLocation := (← curTokenP).location
    if ← matchP [.newKw] then
      let callExpression ← callP f
      match callExpression with
      | .fnCall l c a => pure (.classInst startTokenLocation (.fnCall l c a))
      | _ => throw (.loxE ⟨.syntaxE, startTokenLocation, "new operator can only be used with classes"⟩)
    else callP f

/-- `Parser.primary`. -/
def primaryP : Nat → PM Expr
  | 0 => throw .fuelOut
  | f + 1 => do
    if ← matchP [.numberT, .stringT, .trueKw, .falseKw, .noneKw, .identifier] then
      let token ← previousP
      mkLitP token
    else
      if ← matchP [.thisKw] then do
        mkThisP (← previousP).location
      else
        if ← matchP [.superKw] then
          let superLocation := (← previousP).location
          let c1 ← curTokenP
          _ ← consumeP .dot ⟨.syntaxE, c1.location, "expected . after super keyword"⟩
          let c2 ← curTokenP
          let property ← consumeP .identifier ⟨.syntaxE, c2.location, "expected identifier after ."⟩
          pure (.superE superLocation property)
        else do
          let startToken ← curTokenP
          if ← matchP [.openParen] then
            let e ← expressionP f
            let c ← curTokenP
            _ ← consumeP .closeParen ⟨.syntaxE, c.location, "expect ')' after expression"⟩
            pure (.grouping startToken.location e)
          else
            throw (.loxE ⟨.syntaxE, startToken.location,
              "unexpected token " ++ tokenTypeString startToken.type⟩)

/-- `Parser.expression`. -/
def expressionP : Nat → PM Expr
  | 0 => throw .fuelOut
  | f + 1 => assignmentP f

/-- `Parser.expressionStatement`. -/
def expressionStatementP : Nat → PM Stmt
  | 0 => throw .fuelOut
  | f + 1 => do
    let e ← expressionP f
    consumeSemicolonP
    pure (.exprStmt e)

/-- The `do … while (match(COMMA))` loop of
`Parser.variableDeclarationStatement`. -/
def varDeclLoopP : Nat → List (Token × Option Expr) → PM (List (Token × Option Expr))
  | 0, _ => throw .fuelOut
  | f + 1, acc => do
    let c ← curTokenP
    let identifier ← consumeP .identifier ⟨.syntaxE, c.location, "expected variable name"⟩
    let initializer ←
      if ← matchP [.eq] then do pure (some (← expressionP f))
      else pure none
    let acc := acc ++ [(identifier, initializer)]
    if ← matchP [.comma] then varDeclLoopP f acc else pure acc

/-- `Parser.variableDeclarationStatement`. -/
def variableDeclarationStatementP : Nat → PM Stmt
  | 0 => throw .fuelOut
  | f + 1 => do
    let declarations ← varDeclLoopP f []
    consumeSemicolonP
    pure (.varDecl declarations)

/-- The statement loop of `Parser.blockStatement`; returns the statement
list (the caller wraps it in a `BlockStatement` where the source does). -/
def blockStmtsP : Nat → List Stmt → PM (List Stmt)
  | 0, _ => throw .fuelOut
  | f + 1, acc => do
    if ¬ (← isEOFP) && ¬ (← checkP .closeBrace) then do
      let s ← statementP f
      blockStmtsP f (acc ++ [s])
    else pure acc

/-- `Parser.blockStatement`. -/
def blockStatementP : Nat → PM (List Stmt)
  | 0 => throw .fuelOut
  | f + 1 => do
    let statements ← blockStmtsP f []
    let c ← curTokenP
    _ ← consumeP .closeBrace ⟨.syntaxE, c.location, "expected \x7d"⟩
    pure statements

/-- `Parser.ifStatement`. -/
def ifStatementP : Nat → PM Stmt
  | 0 => throw .fuelOut
  | f + 1 => do
    let c1 ← curTokenP
    _ ← consumeP .openParen ⟨.syntaxE, c1.location, "expected '(' before if condition"⟩
    let condition ← expressionP f
    let c2 ← curTokenP
    _ ← consumeP .closeParen ⟨.syntaxE, c2.location, "expected ')' after if condition"⟩
    let trueStatement ← statementP f
    let elseStatement ←
      if ← matchP [.elseKw] then do pure (some (← statementP f))
      else pure none
    pure (.ifS condition trueStatement elseStatement)

/-- The method loop of `Parser.classDeclarationStatement`. -/
def classBodyP : Nat → List FunDeclRec → PM (List FunDeclRec)
  | 0, _ => throw .fuelOut
  | f + 1, acc => do
    if ¬ (← isEOFP) && ¬ (← checkP .closeBrace) then do
      let m ← functionDeclarationStatementP f "method"
      classBodyP f (acc ++ [m])
    else pure acc

/-- `Parser.classDeclarationStatement`. -/
def classDeclarationStatementP : Nat → PM Stmt
  | 0 => throw .fuelOut
  | f + 1 => do
    let c1 ← curTokenP
    let classIdentifier ← consumeP .identifier
      ⟨.syntaxE, c1.location, "expected class name after class keyword"⟩
    let superClass ←
      if ← matchP [.extendsKw] then do
        let c2 ← curTokenP
        let tok ← consumeP .identifier
          ⟨.syntaxE, c2.location, "expected super class name after extends keyword"⟩
        pure (some (← mkLitP tok))
      else pure none
    let c3 ← curTokenP
    _ ← consumeP .openBrace ⟨.syntaxE, c3.location, "expected \x7b after class name"⟩
    let functionDeclarations ← classBodyP f []
    let c4 ← curTokenP
    _ ← consumeP .closeBrace ⟨.syntaxE, c4.location, "expected \x7d at end of class declaration"⟩
    pure (.classDecl classIdentifier functionDeclarations superClass)

/-- `Parser.whileStatement`. -/
def whileStatementP : Nat → PM Stmt
  | 0 => throw .fuelOut
  | f + 1 => do
    let c1 ← curTokenP
    _ ← consumeP .openParen ⟨.syntaxE, c1.location, "expected '(' before while condition"⟩
    let condition ← expressionP f
    let c2 ← curTokenP
    _ ← consumeP .closeParen ⟨.syntaxE, c2.location, "expected ')' after while condition"⟩
    let body ← statementP f
    pure (.whileS condition body)

/-- The parameter loop of `Parser.functionDeclarationStatement`. -/
def paramsLoopP : Nat → String → List Token → PM (List Token)
  | 0, _, _ => throw .fuelOut
  | f + 1, kind, acc => do
    let c ← curTokenP
    let arg ← consumeP .identifier
      ⟨.syntaxE, c.location,
        "expected " ++ kind ++ " argument to be an identifer but got " ++ tokenTypeString c.type⟩
    let acc := acc ++ [arg]
    if ← matchP [.comma] then paramsLoopP f kind acc else pure acc

/-- `Parser.functionDeclarationStatement`. -/
def functionDeclarationStatementP : Nat → String → PM FunDeclRec
  | 0, _ => throw .fuelOut
  | f + 1, kind => do
    let c1 ← curTokenP
    let functionName ← consumeP .identifier ⟨.syntaxE, c1.location, "expected " ++ kind ++ " name"⟩
    _ ← consumeP .openParen
      ⟨.syntaxE, functionName.location, "expected ( before " ++ kind ++ " arguments"⟩
    let args ←
      if ¬ (← checkP .closeParen) then paramsLoopP f kind []
      else pure []
    let c2 ← curTokenP
    _ ← consumeP .closeParen ⟨.syntaxE, c2.location, "expected ) after function arguments"⟩
    let c3 ← curTokenP
    _ ← consumeP .openBrace ⟨.syntaxE, c3.location, "expected \x7b before function body"⟩
    let body ← blockStatementP f
    pure (FunDeclRec.mk functionName args body)

/-- `Parser.returnStatement` (called after `return` was matched). -/
def returnStatementP : Nat → PM Stmt
  | 0 => throw .fuelOut
  | f + 1 => do
    let returnTokenLocation := (← previousP).location
    let returnExpr ←
      if ¬ (← checkP .semicolon) then do pure (some (← expressionP f))
      else pure none
    consumeSemicolonP
    pure (.ret returnTokenLocation returnExpr)

/-- `Parser.statement`. -/
def statementP : Nat → PM Stmt
  | 0 => throw .fuelOut
  | f + 1 => do
    if ← matchP [.classKw] then classDeclarationStatementP f
    else if ← matchP [.returnKw] then returnStatementP f
    else if ← matchP [.functionKw] then do pure (.funDecl (← functionDeclarationStatementP f "function"))
    else if ← matchP [.whileKw] then whileStatementP f
    else if ← matchP [.ifKw] then ifStatementP f
    else if ← matchP [.openBrace] then do pure (.block (← blockStatementP f))
    else if ← matchP [.letKw] then variableDeclarationStatementP f
    else expressionStatementP f

end

/-- `Parser.sync`: discard tokens up to and including the next `;` or `}`. -/
def syncP : Nat → PM Unit
  | 0 => throw .fuelOut
  | f + 1 => do
    if ¬ (← matchP [.semicolon, .closeBrace]) && ¬ (← isEOFP) then do
      _ ← advanceP
      syncP f
    else pure ()

/-- The statement loop of `Parser.parse`, with its catch-report-sync error
recovery. -/
def parseLoopP : Nat → List Stmt → PM (List Stmt)
  | 0, _ => throw .fuelOut
  | f + 1, acc => do
    if ¬ (← isEOFP) then do
      let acc ← try
          let s ← statementP f
          pure (acc ++ [s])
        catch e =>
          match e with
          | .loxE le => do
            modify fun st => { st with reported := st.reported ++ [le], hasError := true }
            syncP f
            pure acc
          | _ => throw e
      parseLoopP f acc
    else pure acc

/-- `Parser.parse`. -/
def parseP (fuel : Nat) (tokens : List Token) : Except PErr (List Stmt) × PState :=
  ((parseLoopP fuel []).run).run ⟨tokens, 0, 0, false, []⟩

/-- Run a single `Parser.statement` from the start of a token list (used to
state parser properties about one statement). -/
def runStatementP (fuel : Nat) (tokens : List Token) : Except PErr Stmt × PState :=
  ((statementP fuel).run).run ⟨tokens, 0, 0, false, []⟩

end TSLox

namespace TSLox

/-! ## Resolver (`src/resolver.ts`)

Scopes are JS `Map<string, boolean>`s held in a JS array used as a stack
(`push`/`pop` at the end).  We model a `Map` as an insertion-ordered
association list (`set` overwrites in place or appends; `get` finds the first
entry), and the stack as a list in the same order as the JS array: index `0`
is the *first pushed* (outermost) scope, the top of the stack is the last
element. -/

/-- `Map.get`. -/
def assocGet {α : Type} (l : List (String × α)) (k : String) : Option α :=
  (l.find? (fun p => p.1 == k)).map (fun p => p.2)

/-- `Map.set`: overwrite in place, or append a new entry. -/
def assocSet {α : Type} : List (String × α) → String → α → List (String × α)
  | [], k, v => [(k, v)]
  | (k', v') :: rest, k, v =>
    if k' = k then (k, v) :: rest else (k', v') :: assocSet rest k v

/-- `Map.has`. -/
def assocHas {α : Type} (l : List (String × α)) (k : String) : Bool :=
  (assocGet l k).isSome

/-- `token.literalValue as string` (the TS cast performs no conversion;
every token this is applied to carries a string payload). -/
def tokenName (t : Token) : String :=
  match t.literalValue with
  | some (.str s) => s
  | _ => ""

/-- `Map.set` on the bindings map, keyed by node id. -/
def bindingsSet : List (Nat × Nat) → Nat → Nat → List (Nat × Nat)
  | [], k, v => [(k, v)]
  | (k', v') :: rest, k, v =>
    if k' = k then (k, v) :: rest else (k', v') :: bindingsSet rest k v

/-- `Bindings.get`, keyed by node id. -/
def bindingsGet (b : List (Nat × Nat)) (k : Nat) : Option Nat :=
  (b.find? (fun p => p.1 == k)).map (fun p => p.2)

abbrev Scope := List (String × Bool)

structure RState where
  stack : List Scope
  bindings : List (Nat × Nat)
deriving Repr

inductive RErr where
  | loxE (e : LoxErr)
  | hostE (msg : String)
  | fuelOut
deriving Repr, DecidableEq

abbrev RM (α : Type) := ExceptT RErr (StateM RState) α

/-- `Scopes.findDepth`: `stack.findIndex(scope => scope.get(variableName))`.
`findIndex` scans the array from index `0` — i.e. from the *outermost*
scope — and `scope.get(name)` is truthy exactly when the entry is `true`.
Not found (`-1`) returns `null`, else `stack.length - depth - 1`. -/
def findDepth (stack : List Scope) (variableName : String) : Option Nat :=
  let depth := stack.findIdx (fun scope => assocGet scope variableName == some true)
  if depth = stack.length then none
  else some (stack.length - depth - 1)

/-- `Scopes.isEmpty`. -/
def scopesIsEmpty : RM Bool := do
  pure ((← get).stack.length == 0)

/-- `Scopes.push`. -/
def beginScopeR : RM Unit := do
  modify fun st => { st with stack := st.stack ++ [[]] }

/-- `Scopes.pop` (with `assertNotEmpty`, which throws a plain JS `Error`). -/
def endScopeR : RM Unit := do
  let st ← get
  if st.stack.length = 0 then throw (.hostE "ScopeStack is empty")
  else set { st with stack := st.stack.dropLast }

/-- Update the top scope in place (`scopes.peek().set(...)`). -/
def updateTopScope (g : Scope → Scope) : RM Unit := do
  modify fun st =>
    { st with stack := st.stack.dropLast ++ (st.stack.getLast?.map g).toList }

/-- `Resolver.define`. -/
def defineR (variableName : String) : RM Unit := do
  if ← scopesIsEmpty then pure ()
  else updateTopScope (fun sc => assocSet sc variableName true)

/-- `Resolver.declare`. -/
def declareR (variableName : String) : RM Unit := do
  if ← scopesIsEmpty then pure ()
  else updateTopScope (fun sc => assocSet sc variableName false)

/-- `Resolver.resolveBinding` for the node with id `id`. -/
def resolveBindingR (id : Nat) (variableName : String) : RM Unit := do
  let st ← get
  match findDepth st.stack variableName with
  | some depth => set { st with bindings := bindingsSet st.bindings id depth }
  | none => pure ()

/-- `Resolver.resolveLocal` on a `Literal` node. -/
def resolveLocalR (id : Nat) (value : Token) : RM Unit := do
  if value.type == .identifier then
    let variableName := tokenName value
    let st ← get
    if st.stack.length ≠ 0 ∧ assocGet (st.stack.getLast?.getD []) variableName = some false then
      throw (.loxE ⟨.syntaxE, value.location, "cannot use same variable for initialization"⟩)
    else resolveBindingR id variableName
  else pure ()

mutual

/-- `Resolver.resolveExpr` / the `ExpressionVisitor` dispatch.  The
`Resolver` class declares `implements ExpressionVisitor` but defines no
`visitSuperExpression`, so dispatching a `SuperExpression` is a JS
`TypeError` at run time — modelled as a host error. -/
def resolveExprR : Nat → Expr → RM Unit
  | 0, _ => throw .fuelOut
  | f + 1, e =>
    match e with
    | .lit id value => resolveLocalR id value
    | .ternary _ c t fe => do
      resolveExprR f c
      resolveExprR f t
      resolveExprR f fe
    | .binary _ l _ r => do
      resolveExprR f l
      resolveExprR f r
    | .unary _ _ inner _ => resolveExprR f inner
    | .grouping _ inner => resolveExprR f inner
    | .fnCall _ calle args => do
      resolveExprR f calle
      resolveExprListR f args
    | .assign _ lValue rValue => do
      (match lValue with
       | .lit id value => resolveLocalR id value
       | .instGet l o p => resolveExprR f (.instGet l o p)
       | _ => pure ())
      resolveExprR f rValue
    | .classInst _ callExpression => resolveExprR f callExpression
    | .instGet _ o _ => resolveExprR f o
    | .thisE id _ => resolveBindingR id "this"
    | .superE _ _ => throw (.hostE "this.visitSuperExpression is not a function")

def resolveExprListR : Nat → List Expr → RM Unit
  | 0, _ => throw .fuelOut
  | _ + 1, [] => pure ()
  | f + 1, e :: rest => do
    resolveExprR f e
    resolveExprListR f rest

/-- `Resolver.resolveStmt` / the `StatementVisitor` dispatch. -/
def resolveStmtR : Nat → Stmt → RM Unit
  | 0, _ => throw .fuelOut
  | f + 1, s =>
    match s with
    | .varDecl declarations => varDeclResolveLoopR f declarations
    | .funDecl d => do
      defineR (tokenName d.functionName)
      beginScopeR
      defineArgsR f d.args
      resolveStmtsR f d.body
      endScopeR
    | .ret _ returnExpr =>
      match returnExpr with
      | some e => resolveExprR f e
      | none => pure ()
    | .exprStmt expression => resolveExprR f expression
    | .block statements => do
      beginScopeR
      resolveStmtsR f statements
      endScopeR
    | .ifS condition trueStatement falseStatement => do
      resolveExprR f condition
      resolveStmtR f trueStatement
      match falseStatement with
      | some fs => resolveStmtR f fs
      | none => pure ()
    | .whileS condition body => do
      resolveExprR f condition
      resolveStmtR f body
    | .classDecl className methods _ => do
      defineR (tokenName className)
      beginScopeR
      defineR "this"
      methodsResolveLoopR f methods
      endScopeR

/-- Per-declaration loop of `visitVariableDeclarationStatement`:
`declare`, resolve the initializer, `define`. -/
def varDeclResolveLoopR : Nat → List (Token × Option Expr) → RM Unit
  | 0, _ => throw .fuelOut
  | _ + 1, [] => pure ()
  | f + 1, (identifier, initializer) :: rest => do
    let variableName := tokenName identifier
    declareR variableName
    (match initializer with
     | some e => resolveExprR f e
     | none => pure ())
    defineR variableName
    varDeclResolveLoopR f rest

/-- `statement.args.forEach(arg => define(arg.literalValue as string))`. -/
def defineArgsR : Nat → List Token → RM Unit
  | 0, _ => throw .fuelOut
  | _ + 1, [] => pure ()
  | f + 1, arg :: rest => do
    defineR (tokenName arg)
    defineArgsR f rest

/-- `Resolver.resolveStmts`. -/
def resolveStmtsR : Nat → List Stmt → RM Unit
  | 0, _ => throw .fuelOut
  | _ + 1, [] => pure ()
  | f + 1, s :: rest => do
    resolveStmtR f s
    resolveStmtsR f rest

/-- `resolveStmts(statement.methods)`: the class methods are
`FunctionDeclarationStatement`s and dispatch to
`visitFunctionDeclarationStatement`. -/
def methodsResolveLoopR : Nat → List FunDeclRec → RM Unit
  | 0, _ => throw .fuelOut
  | _ + 1, [] => pure ()
  | f + 1, m :: rest => do
    resolveStmtR f (.funDecl m)
    methodsResolveLoopR f rest

end

/-- `Resolver.resolve`: resolve the program's statements from an empty scope
stack and return the bindings map.  A thrown error is not caught anywhere in
the driver (`src/unnamed/part_007`), so it aborts the run. -/
def resolveProgram (fuel : Nat) (statements : List Stmt) : Except RErr (List (Nat × Nat)) :=
  match ((resolveStmtsR fuel statements).run).run ⟨[], []⟩ with
  | (.ok _, st) => .ok st.bindings
  | (.error e, _) => .error e

end TSLox

namespace TSLox

/-! ## Runtime values and heap (`src/interpreter.ts`)

Runtime values are whatever JS values the evaluator produces: numbers,
strings, JS booleans (from the comparison operators), `undefined` (a call
with no return value), `NaN` (failed numeric coercions), and references to
the mutable heap objects `LoxCallableFn`, `LoxClass`, `LoxInstance` (plus
the two singleton natives).  Mutable objects live in per-kind heaps indexed
by allocation order; `Environment`s form a parent-linked chain in the same
way.  A parent is always allocated before its child, so parent indices are
strictly smaller — chain walks use the heap size as fuel. -/

inductive Value where
  | num (q : ℚ)
  | str (s : String)
  | jsBool (b : Bool)
  | undefV
  | nan
  | fnRef (i : Nat)
  | nativeClock
  | nativePrint
  | classRef (i : Nat)
  | instRef (i : Nat)
deriving Repr, DecidableEq

/-- `class Environment`: `declarations` map and optional `_outerScope`. -/
structure EnvObj where
  outerScope : Option Nat
  declarations : List (String × Value)
deriving Repr, DecidableEq

/-- `class LoxCallableFn`: captured closure environment, the function
declaration, and the mutable `loxInstance` field set by `bind`. -/
structure FnObj where
  closure : Nat
  decl : FunDeclRec
  loxInstance : Option Nat
deriving Repr

/-- `class LoxClass`: its name token and the method objects, created once at
class-declaration time. -/
structure ClassObj where
  className : Token
  methods : List Nat
deriving Repr

/-- `class LoxInstance`. -/
structure InstObj where
  loxClass : Nat
  fields : List (String × Value)
deriving Repr

/-- The interpreter's mutable world: the heaps, the process-wide
`currentEnvironment` register, the values handed to `print`, and the errors
reported by `TSLoxInterpreter.interpret`. -/
structure S where
  envs : List EnvObj
  fns : List FnObj
  classes : List ClassObj
  insts : List InstObj
  currentEnv : Nat
  output : List Value
  reported : List LoxErr
deriving Repr

/-- What the evaluator can throw: a `TSLoxError`, a `ReturnStatementError`
(carrying the return statement's location and unevaluated expression), a
host-level JS crash, or fuel exhaustion (the model's artefact, never
produced in the verified runs). -/
inductive ErrK where
  | loxErr (e : LoxErr)
  | returnErr (returnTokenLocation : TokenLocation) (returnExpr : Option Expr)
  | hostErr (msg : String)
  | fuelOut

abbrev Bindings := List (Nat × Nat)

abbrev IM (α : Type) := ExceptT ErrK (StateM S) α

def updateAt {α : Type} : List α → Nat → (α → α) → List α
  | [], _, _ => []
  | x :: xs, 0, g => g x :: xs
  | x :: xs, i + 1, g => x :: updateAt xs i g

def getEnvObj (st : S) (i : Nat) : EnvObj :=
  st.envs.getD i ⟨none, []⟩

def getFnObj (st : S) (i : Nat) : FnObj :=
  st.fns.getD i ⟨0, .mk ⟨.eof, none, ⟨0, 0⟩⟩ [] [], none⟩

def getClassObj (st : S) (i : Nat) : ClassObj :=
  st.classes.getD i ⟨⟨.eof, none, ⟨0, 0⟩⟩, []⟩

def getInstObj (st : S) (i : Nat) : InstObj :=
  st.insts.getD i ⟨0, []⟩

/-- `Environment.define` / `Environment.setValue` (both are `Map.set`). -/
def envDefine (st : S) (i : Nat) (variableName : String) (value : Value) : S :=
  { st with
    envs := updateAt st.envs i
      (fun e => { e with declarations := assocSet e.declarations variableName value }) }

/-- `Environment.getValue`: `Map.get`, `undefined` when absent. -/
def envGetValue (st : S) (i : Nat) (variableName : String) : Value :=
  (assocGet (getEnvObj st i).declarations variableName).getD .undefV

/-- `Environment.resolve(depth)`: walk exactly `depth` `_outerScope` links
with optional chaining (`environment?._outerScope`). -/
def envResolveGo (st : S) : Nat → Option Nat → Option Nat
  | 0, e => e
  | d + 1, e =>
    envResolveGo st d (match e with
      | some i => (getEnvObj st i).outerScope
      | none => none)

def envResolve (st : S) (i : Nat) (depth : Nat) : Option Nat :=
  envResolveGo st depth (some i)

/-- `Environment.getGlobalEnvironment`: walk to the root. -/
def globalEnvGo (st : S) : Nat → Nat → Nat
  | 0, i => i
  | f + 1, i =>
    match (getEnvObj st i).outerScope with
    | some p => globalEnvGo st f p
    | none => i

def getGlobalEnvironment (st : S) (i : Nat) : Nat :=
  globalEnvGo st st.envs.length i

/-- `Environment.isDefined`: this map or any ancestor's. -/
def isDefinedGo (st : S) : Nat → Nat → String → Bool
  | 0, _, _ => false
  | f + 1, i, name =>
    assocHas (getEnvObj st i).declarations name ||
      (match (getEnvObj st i).outerScope with
       | some p => isDefinedGo st f p name
       | none => false)

def isDefinedChain (st : S) (i : Nat) (name : String) : Bool :=
  isDefinedGo st (st.envs.length + 1) i name

/-- `Environment.isDefinedInScope`. -/
def isDefinedInScope (st : S) (i : Nat) (name : String) : Bool :=
  assocHas (getEnvObj st i).declarations name

/-- `Environment.get(name, depth?)`: with a depth, resolve and read there
(`environment?.getValue` is `undefined` when the walk fell off the chain);
without, read the global environment. -/
def envGetVar (st : S) (i : Nat) (variableName : String) : Option Nat → Value
  | some depth =>
    match envResolve st i depth with
    | some e => envGetValue st e variableName
    | none => .undefV
  | none => envGetValue st (getGlobalEnvironment st i) variableName

/-- `Environment.assign(name, value, depth?)`: with a depth, resolve and
`setValue` there (no-op if the walk fell off the chain); without, set on the
global environment. -/
def envAssignVar (st : S) (i : Nat) (variableName : String) (value : Value) :
    Option Nat → S
  | some depth =>
    match envResolve st i depth with
    | some e => envDefine st e variableName value
    | none => st
  | none => envDefine st (getGlobalEnvironment st i) variableName value

/-! ### JS value semantics -/

/-- JS `ToBoolean` on the values the evaluator produces: `0`, `''`, `false`,
`undefined` and `NaN` are falsy; every object is truthy. -/
def truthy : Value → Bool
  | .num q => decide (q ≠ 0)
  | .str s => decide (s ≠ "")
  | .jsBool b => b
  | .undefV => false
  | .nan => false
  | _ => true

/-- `expr.value.literalValue || 0` in `visitLiteral`: the payload if it is
truthy, else the number `0` — so a number token keeps its value (`0 || 0` is
`0`), a non-empty string keeps its value, but the *empty string literal
evaluates to the number `0`*, and a missing payload evaluates to `0`. -/
def jsOrZero : Option LitVal → Value
  | some (.num q) => .num q
  | some (.str s) => if s = "" then .num 0 else .str s
  | none => .num 0

/-- The numeric value of a string under JS `ToNumber`, restricted to the
simple decimal forms that can occur here (`none` = `NaN`; the empty string
coerces to `0`; exponents, hex, signs and surrounding whitespace do not occur
in the verified runs and are treated as `NaN`). -/
def strToNum (s : String) : Option ℚ :=
  if s = "" then some 0
  else
    let cs := s.toList
    let intPart := leadingDigits cs
    if intPart.length = 0 then none
    else
      match cs.drop intPart.length with
      | [] => some (digitsVal intPart : ℚ)
      | '.' :: rest =>
        let frac := leadingDigits rest
        if frac.length = rest.length ∧ frac.length ≠ 0 then
          some ((digitsVal intPart : ℚ) + (digitsVal frac : ℚ) / (10 : ℚ) ^ frac.length)
        else none
      | _ => none

/-- JS `ToNumber` (`none` = `NaN`).  Function, class and instance objects
coerce through `valueOf`/`toString` to non-numeric strings, hence `NaN`. -/
def jsToNum : Value → Option ℚ
  | .num q => some q
  | .nan => none
  | .str s => strToNum s
  | .jsBool b => some (if b then 1 else 0)
  | .undefV => none
  | _ => none

/-- The global `isNaN`, which coerces with `ToNumber` first. -/
def jsIsNaN (v : Value) : Bool :=
  (jsToNum v).isNone

/-- Decimal rendering of a number for JS string contexts.  Integral values
render exactly as JS does; non-integral values only occur in error-message
interpolations of unverified paths and are rendered as `num/den`. -/
def numToString (q : ℚ) : String :=
  if q.den = 1 then toString q.num else toString q.num ++ "/" ++ toString q.den

/-- `String(v)` / template-literal interpolation: the objects use their
`toString()` methods (`fn <name>`, `fn <native>`, `class <name>`,
`instance <name>`). -/
def valueToString (st : S) : Value → String
  | .num q => numToString q
  | .str s => s
  | .jsBool b => if b then "true" else "false"
  | .undefV => "undefined"
  | .nan => "NaN"
  | .fnRef i => "fn <" ++ tokenName (getFnObj st i).decl.functionName ++ ">"
  | .nativeClock => "fn <native>"
  | .nativePrint => "fn <native>"
  | .classRef i => "class <" ++ tokenName (getClassObj st i).className ++ ">"
  | .instRef i => "instance <" ++ tokenName (getClassObj st (getInstObj st i).loxClass).className ++ ">"

/-- JS `ToPrimitive`: objects fall back to their `toString()`; primitives
are themselves. -/
def toPrimitive (st : S) (v : Value) : Value :=
  match v with
  | .fnRef _ | .nativeClock | .nativePrint | .classRef _ | .instRef _ => .str (valueToString st v)
  | _ => v

/-- The JS `+` operator: after `ToPrimitive`, string concatenation if either
side is a string, else numeric addition (`NaN`-propagating). -/
def jsAdd (st : S) (l r : Value) : Value :=
  let l' := toPrimitive st l
  let r' := toPrimitive st r
  match l', r' with
  | .str a, _ => .str (a ++ valueToString st r')
  | _, .str b => .str (valueToString st l' ++ b)
  | _, _ =>
    match jsToNum l', jsToNum r' with
    | some a, some b => .num (a + b)
    | _, _ => .nan

/-- JS `-` on two values (its operands here already passed `assertNumber`,
but may still be numeric strings or booleans, which `-` coerces). -/
def jsSub (l r : Value) : Value :=
  match jsToNum l, jsToNum r with
  | some a, some b => .num (a - b)
  | _, _ => .nan

def jsMul (l r : Value) : Value :=
  match jsToNum l, jsToNum r with
  | some a, some b => .num (a * b)
  | _, _ => .nan

/-- JS `/`.  Division by zero yields host `±Infinity` (`NaN` for `0/0`),
collapsed here to `nan`; no verified program divides by zero. -/
def jsDiv (l r : Value) : Value :=
  match jsToNum l, jsToNum r with
  | some a, some b => if b = 0 then .nan else .num (a / b)
  | _, _ => .nan

/-- `Math.pow`.  Integral exponents are exact; a non-integral exponent's
irrational result is outside the model (collapsed to `nan`; no verified
program raises to a non-integral power). -/
def jsPow (l r : Value) : Value :=
  match jsToNum l, jsToNum r with
  | some a, some b => if b.den = 1 then .num (a ^ b.num) else .nan
  | _, _ => .nan

/-- JS `<` on two values: string-to-string comparison is lexicographic,
otherwise numeric with `NaN` incomparable. -/
def jsLtB (st : S) (l r : Value) : Bool :=
  match toPrimitive st l, toPrimitive st r with
  | .str a, .str b => decide (a < b)
  | l', r' =>
    match jsToNum l', jsToNum r' with
    | some a, some b => decide (a < b)
    | _, _ => false

def jsLeB (st : S) (l r : Value) : Bool :=
  match toPrimitive st l, toPrimitive st r with
  | .str a, .str b => decide (a ≤ b)
  | l', r' =>
    match jsToNum l', jsToNum r' with
    | some a, some b => decide (a ≤ b)
    | _, _ => false

/-- JS strict equality `===` (`!==` is its negation): equal only within one
type; object references by identity; `NaN` unequal to itself. -/
def jsStrictEq : Value → Value → Bool
  | .num a, .num b => a == b
  | .str a, .str b => a == b
  | .jsBool a, .jsBool b => a == b
  | .undefV, .undefV => true
  | .fnRef a, .fnRef b => a == b
  | .nativeClock, .nativeClock => true
  | .nativePrint, .nativePrint => true
  | .classRef a, .classRef b => a == b
  | .instRef a, .instRef b => a == b
  | _, _ => false

/-- `v instanceof LoxCallable`. -/
def isCallableV : Value → Bool
  | .fnRef _ => true
  | .nativeClock => true
  | .nativePrint => true
  | _ => false

/-- `loxCallable.arity`: a user function's declared parameter count;
`clock` was installed with arity `0` and `print` with arity `1`. -/
def arityOf (st : S) : Value → Nat
  | .fnRef i => (getFnObj st i).decl.args.length
  | .nativeClock => 0
  | .nativePrint => 1
  | _ => 0

/-- `LoxClass.findMethod`: first method whose `functionName` matches. -/
def findMethodS (st : S) (c : Nat) (methodName : String) : Option Nat :=
  (getClassObj st c).methods.find?
    (fun k => tokenName (getFnObj st k).decl.functionName == methodName)

/-- `LoxClass.arity`: the `constructor` method's arity, or `0`. -/
def classArity (st : S) (c : Nat) : Nat :=
  match findMethodS st c "constructor" with
  | some k => (getFnObj st k).decl.args.length
  | none => 0

/-- `LoxCallableFn.bind`: mutates the (shared) callable's `loxInstance`
field and returns the same object. -/
def bindFn (st : S) (k : Nat) (inst : Nat) : S :=
  { st with fns := updateAt st.fns k (fun fn => { fn with loxInstance := some inst }) }

/-- `LoxInstance.setField`. -/
def setField (st : S) (i : Nat) (property : Token) (value : Value) : S :=
  { st with
    insts := updateAt st.insts i
      (fun io => { io with fields := assocSet io.fields (tokenName property) value }) }

/-- `argNames.forEach((argName, index) => environment.define(argName, args[index]))`
(`args[index]` is `undefined` past the end). -/
def defineArgsS (st : S) (env : Nat) (names : List String) (vals : List Value) : S :=
  names.enum.foldl (fun st p => envDefine st env p.2 (vals.getD p.1 .undefV)) st

/-- `LoxClass` construction (`new LoxCallableFn(new Environment(currentEnvironment), fn, …)`
per method): allocates one fresh closure environment and one callable per
declared method.  Returns the method object indices. -/
def allocMethods (cur : Nat) : S → List FunDeclRec → List Nat × S
  | st, [] => ([], st)
  | st, m :: rest =>
    let closureIdx := st.envs.length
    let st := { st with envs := st.envs ++ [(⟨some cur, []⟩ : EnvObj)] }
    let k := st.fns.length
    let st := { st with fns := st.fns ++ [(⟨closureIdx, m, none⟩ : FnObj)] }
    let (ks, st) := allocMethods cur st rest
    (k :: ks, st)

end TSLox

namespace TSLox

/-! ## Evaluator (`src/interpreter.ts`, `ExpressionInterpreter` and
`TSLoxInterpreter`)

The exception monad sits inside the state monad: state mutations performed
before a throw persist across the throw, exactly as for a JS exception.
`currentEnvironment` is the process-wide register of the source; the
`bindings` map from the resolver is passed to every function, mirroring the
`ExpressionInterpreter` constructor argument.  Fuel makes the recursion
structural; every recursive call uses one unit. -/

mutual

/-- `ExpressionInterpreter.assertNumber`: evaluate, throw a Runtime error
when (coercing) `isNaN` holds, and return the *unconverted* value. -/
def assertNumberI (B : Bindings) : Nat → Expr → IM Value
  | 0, _ => throw .fuelOut
  | f + 1, e => do
    let value ← evalExprI B f e
    if jsIsNaN value then
      throw (.loxErr ⟨.runtimeE, e.location, "expected operand to be a number"⟩)
    else pure value

/-- `ExpressionInterpreter.interpret` / `expr.accept(this)`: the expression
visitor dispatch. -/
def evalExprI (B : Bindings) : Nat → Expr → IM Value
  | 0, _ => throw .fuelOut
  | f + 1, e =>
    match e with
    | .thisE id _ => do
      -- visitThisExpression
      let st ← get
      let depth := bindingsGet B id
      pure (envGetVar st st.currentEnv "this" depth)
    | .lit id value =>
      -- visitLiteral
      if value.type == .noneKw then pure (.num 0)
      else if value.type == .trueKw then pure (.num 1)
      else if value.type == .falseKw then pure (.num 0)
      else if value.type == .identifier then do
        let variableName := tokenName value
        let st ← get
        if isDefinedChain st st.currentEnv variableName then
          let depth := bindingsGet B id
          pure (envGetVar st st.currentEnv variableName depth)
        else
          throw (.loxErr ⟨.runtimeE, value.location, "undefined variable '" ++ variableName ++ "'"⟩)
      else pure (jsOrZero value.literalValue)
    | .unary _ operator inner postOp =>
      -- visitUnaryExpr
      match operator.type with
      | .minus => do
        let v ← assertNumberI B f inner
        pure (match jsToNum v with | some a => .num (-a) | none => .nan)
      | .plus => assertNumberI B f inner
      | .plusPlus =>
        -- the PLUS_PLUS case has no `break` on its identifier-check misses:
        -- a `Literal` operand that is not an identifier falls through the
        -- MINUS_MINUS case into the BANG case
        (match inner with
         | .lit innerId innerTok =>
           if innerTok.type == .identifier then do
             let oldValue ← assertNumberI B f (.lit innerId innerTok)
             let newValue := (fun st => jsAdd st oldValue (.num 1))
             let st ← get
             let nv := newValue st
             set (envAssignVar st st.currentEnv (tokenName innerTok) nv (bindingsGet B innerId))
             pure (if postOp then oldValue else nv)
           else do
             let value ← evalExprI B f (.lit innerId innerTok)
             if truthy value then pure (.num 0) else pure (.num 1)
         | _ =>
           throw (.loxErr ⟨.runtimeE, inner.location, "operand of increment operator must be an identifier"⟩))
      | .minusMinus =>
        (match inner with
         | .lit innerId innerTok =>
           if innerTok.type == .identifier then do
             let oldValue ← assertNumberI B f (.lit innerId innerTok)
             let nv := jsSub oldValue (.num 1)
             let st ← get
             set (envAssignVar st st.currentEnv (tokenName innerTok) nv (bindingsGet B innerId))
             pure (if postOp then oldValue else nv)
           else do
             let value ← evalExprI B f (.lit innerId innerTok)
             if truthy value then pure (.num 0) else pure (.num 1)
         | _ =>
           throw (.loxErr ⟨.runtimeE, inner.location, "operand of decrement operator must be an identifier"⟩))
      | .bang => do
        let value ← evalExprI B f inner
        if truthy value then pure (.num 0) else pure (.num 1)
      | _ => pure .undefV
    | .grouping _ inner => evalExprI B f inner
    | .ternary _ conditionalExpression truthyExpression falsyExpression => do
      -- visitTernaryExpr
      let conditionalValue ← evalExprI B f conditionalExpression
      if truthy conditionalValue then evalExprI B f truthyExpression
      else evalExprI B f falsyExpression
    | .binary _ leftExpr operator rightExpr =>
      -- visitBinaryExpr
      (match operator.type with
       | .caret => do
         let a ← assertNumberI B f leftExpr
         let b ← assertNumberI B f rightExpr
         pure (jsPow a b)
       | .plus => do
         let lv ← evalExprI B f leftExpr
         let rv ← evalExprI B f rightExpr
         let st ← get
         pure (jsAdd st lv rv)
       | .minus => do
         let a ← assertNumberI B f leftExpr
         let b ← assertNumberI B f rightExpr
         pure (jsSub a b)
       | .mul => do
         let a ← assertNumberI B f leftExpr
         let b ← assertNumberI B f rightExpr
         pure (jsMul a b)
       | .slash => do
         let a ← assertNumberI B f leftExpr
         let b ← assertNumberI B f rightExpr
         pure (jsDiv a b)
       | .gt => do
         let a ← assertNumberI B f leftExpr
         let b ← assertNumberI B f rightExpr
         let st ← get
         pure (.jsBool (jsLtB st b a))
       | .gte => do
         let a ← assertNumberI B f leftExpr
         let b ← assertNumberI B f rightExpr
         let st ← get
         pure (.jsBool (jsLeB st b a))
       | .lt => do
         let a ← assertNumberI B f leftExpr
         let b ← assertNumberI B f rightExpr
         let st ← get
         pure (.jsBool (jsLtB st a b))
       | .lte => do
         let a ← assertNumberI B f leftExpr
         let b ← assertNumberI B f rightExpr
         let st ← get
         pure (.jsBool (jsLeB st a b))
       | .eqEq => do
         let leftValue ← evalExprI B f leftExpr
         let rightValue ← evalExprI B f rightExpr
         pure (.jsBool (jsStrictEq leftValue rightValue))
       | .bangEq => do
         let leftValue ← evalExprI B f leftExpr
         let rightValue ← evalExprI B f rightExpr
         pure (.jsBool (! jsStrictEq leftValue rightValue))
       | _ => pure .undefV)
    | .assign _ lValue rValue => do
      -- visitAssignmentExpr: the rvalue is evaluated first
      let value ← evalExprI B f rValue
      (match lValue with
       | .lit id tok => do
         let variableName := tokenName tok
         let st ← get
         if isDefinedChain st st.currentEnv variableName then
           set (envAssignVar st st.currentEnv variableName value (bindingsGet B id))
         else
           throw (.loxErr ⟨.runtimeE, tok.location, "undefined variable '" ++ variableName ++ "'"⟩)
       | .instGet igLoc objE property => do
         let instanceV ← evalExprI B f objE
         (match instanceV with
          | .instRef i => do
            let st ← get
            set (setField st i property value)
          | _ =>
            throw (.loxErr ⟨.runtimeE, igLoc, "property can be only accessed on a class instance"⟩))
       | _ => pure ())
      pure value
    | .fnCall _ calle args => do
      -- visitFunctionCallExpr: arity is checked before any argument is
      -- evaluated; arguments are then evaluated left to right
      let loxCallable ← evalExprI B f calle
      if isCallableV loxCallable then do
        let st ← get
        let ar := arityOf st loxCallable
        if ar ≠ args.length then
          throw (.loxErr ⟨.runtimeE, calle.location,
            "expected " ++ toString ar ++ " args but got " ++ toString args.length⟩)
        else do
          let argVals ← evalArgsI B f args
          invokeCallable B f loxCallable argVals
      else
        match loxCallable with
        | .classRef c => do
          let st ← get
          throw (.loxErr ⟨.runtimeE, calle.location,
            "class '" ++ tokenName (getClassObj st c).className ++
              "' can be only instantiated using the new operator"⟩)
        | _ => do
          let st ← get
          throw (.loxErr ⟨.runtimeE, calle.location,
            "'" ++ valueToString st loxCallable ++ "' is not callable"⟩)
    | .classInst ciLoc callExpression =>
      -- visitClassInstantiationExpression
      (match callExpression with
       | .fnCall _ calle args => do
         let loxClass ← evalExprI B f calle
         (match loxClass with
          | .classRef c => do
            let st ← get
            let ar := classArity st c
            if ar ≠ args.length then
              throw (.loxErr ⟨.runtimeE, calle.location,
                "expected " ++ toString ar ++ " args but got " ++ toString args.length⟩)
            else do
              let st ← get
              let instIdx := st.insts.length
              set { st with insts := st.insts ++ [(⟨c, []⟩ : InstObj)] }
              -- findMethod('constructor')?.bind(loxInstance)
              (match findMethodS st c "constructor" with
               | some k => do
                 modify (fun st2 => bindFn st2 k instIdx)
                 let argVals ← evalArgsI B f args
                 _ ← invokeFnI B f k argVals
                 pure (.instRef instIdx)
               | none => pure (.instRef instIdx))
          | other => do
            let st ← get
            throw (.loxErr ⟨.runtimeE, ciLoc, valueToString st other ++ " is not a class"⟩))
       | _ => throw (.hostErr "callExpression is not a FunctionCallExpression"))
    | .instGet _ objE property => do
      -- visitInstanceGetExpression
      let instanceV ← evalExprI B f objE
      (match instanceV with
       | .instRef i => getPropertyI B f i property
       | _ =>
         throw (.loxErr ⟨.runtimeE, property.location, "property can be only accessed on a class instance"⟩))
    | .superE _ _ =>
      -- ExpressionInterpreter declares `implements ExpressionVisitor` but
      -- defines no visitSuperExpression: dispatch is a JS TypeError
      throw (.hostErr "this.visitSuperExpression is not a function")

/-- Left-to-right evaluation of the argument list
(`expr.args.map(arg => this.interpret(arg))`). -/
def evalArgsI (B : Bindings) : Nat → List Expr → IM (List Value)
  | 0, _ => throw .fuelOut
  | _ + 1, [] => pure []
  | f + 1, a :: rest => do
    let v ← evalExprI B f a
    let vs ← evalArgsI B f rest
    pure (v :: vs)

/-- `loxCallable.call(...args)`: user function or one of the two natives
(`clock`'s wall-time reading is an external collaborator, modelled as `0`;
`print` appends its argument to the output and returns `undefined`). -/
def invokeCallable (B : Bindings) : Nat → Value → List Value → IM Value
  | 0, _, _ => throw .fuelOut
  | f + 1, v, argVals =>
    match v with
    | .fnRef k => invokeFnI B f k argVals
    | .nativeClock => pure (.num 0)
    | .nativePrint => do
      modify (fun st => { st with output := st.output ++ [argVals.getD 0 .undefV] })
      pure .undefV
    | _ => throw (.hostErr "call on a non-callable")

/-- `LoxCallableFn.call`: allocate the call-frame environment (child of the
closure), define `this` in the *closure* environment when the callable is
bound, bind the parameters, execute the body, and catch a return unwind.
When the unwind carries an expression, it is evaluated (in the environment
current at the throw) and `currentEnvironment` is restored; on a bare
`return;` the catch body does nothing — in particular it does *not* restore
`currentEnvironment` — and the call returns `undefined`. -/
def invokeFnI (B : Bindings) : Nat → Nat → List Value → IM Value
  | 0, _, _ => throw .fuelOut
  | f + 1, k, argVals => do
    let st ← get
    let fn := getFnObj st k
    let environment := st.envs.length
    set { st with envs := st.envs ++ [(⟨some fn.closure, []⟩ : EnvObj)] }
    (match fn.loxInstance with
     | some inst => modify (fun st2 => envDefine st2 fn.closure "this" (.instRef inst))
     | none => pure ())
    let argNames := fn.decl.args.map tokenName
    let oldEnvironment := st.currentEnv
    modify (fun st2 => defineArgsS st2 environment argNames argVals)
    try
      interpretBlockI B f fn.decl.body environment
      pure .undefV
    catch e =>
      match e with
      | .returnErr _ (some returnExpr) => do
        let returnValue ← evalExprI B f returnExpr
        modify (fun st2 => { st2 with currentEnv := oldEnvironment })
        pure returnValue
      | .returnErr _ none => pure .undefV
      | _ => throw e

/-- `LoxInstance.getProperty`: own fields first, then the *own class's*
method list (there is no superclass fallback), binding the found method to
this instance. -/
def getPropertyI (_B : Bindings) : Nat → Nat → Token → IM Value
  | 0, _, _ => throw .fuelOut
  | _ + 1, i, property => do
    let st ← get
    let propertyName := tokenName property
    match assocGet (getInstObj st i).fields propertyName with
    | some v => pure v
    | none =>
      match findMethodS st (getInstObj st i).loxClass propertyName with
      | some k => do
        modify (fun st2 => bindFn st2 k i)
        pure (.fnRef k)
      | none =>
        throw (.loxErr ⟨.runtimeE, property.location,
          "accessing undefined property " ++ propertyName ++ " on instance"⟩)

/-- `TSLoxInterpreter.interpretBlockStatement`: swap `currentEnvironment`,
run the statements, and restore — the restore is skipped when a statement
throws, since the exception propagates past it. -/
def interpretBlockI (B : Bindings) : Nat → List Stmt → Nat → IM Unit
  | 0, _, _ => throw .fuelOut
  | f + 1, statements, environment => do
    let oldEnvironment := (← get).currentEnv
    modify (fun st => { st with currentEnv := environment })
    evalStmtsI B f statements
    modify (fun st => { st with currentEnv := oldEnvironment })

def evalStmtsI (B : Bindings) : Nat → List Stmt → IM Unit
  | 0, _ => throw .fuelOut
  | _ + 1, [] => pure ()
  | f + 1, s :: rest => do
    evalStmtI B f s
    evalStmtsI B f rest

/-- `statement.accept(this)` on `TSLoxInterpreter`: the statement visitor
dispatch. -/
def evalStmtI (B : Bindings) : Nat → Stmt → IM Unit
  | 0, _ => throw .fuelOut
  | f + 1, s =>
    match s with
    | .exprStmt expression => do
      -- visitExpressionStatement
      _ ← evalExprI B f expression
      pure ()
    | .varDecl declarations => varDeclExecI B f declarations
    | .block statements => do
      -- visitBlockStatement: a fresh environment whose parent is the
      -- current one
      let st ← get
      let envIdx := st.envs.length
      set { st with envs := st.envs ++ [(⟨some st.currentEnv, []⟩ : EnvObj)] }
      interpretBlockI B f statements envIdx
    | .funDecl d => do
      -- visitFunctionDeclarationStatement: the closure is the current
      -- environment
      modify (fun st =>
        let k := st.fns.length
        let st := { st with fns := st.fns ++ [(⟨st.currentEnv, d, none⟩ : FnObj)] }
        envDefine st st.currentEnv (tokenName d.functionName) (.fnRef k))
    | .ifS condition trueStatement falseStatement => do
      -- visitIfStatement
      let conditionValue ← evalExprI B f condition
      if truthy conditionValue then evalStmtI B f trueStatement
      else
        match falseStatement with
        | some fs => evalStmtI B f fs
        | none => pure ()
    | .whileS condition body => do
      -- visitWhileStatement
      let conditionValue ← evalExprI B f condition
      whileGoI B f condition body conditionValue
    | .ret returnTokenLocation returnExpr =>
      -- visitReturnStatement: throw ReturnStatementError
      throw (.returnErr returnTokenLocation returnExpr)
    | .classDecl className methods _ => do
      -- visitClassDeclarationStatement (the superclass literal is unused);
      -- a duplicate name in scope throws the (misused) undefinedVariable
      -- error
      let name := tokenName className
      let st ← get
      if isDefinedInScope st st.currentEnv name then
        throw (.loxErr ⟨.runtimeE, className.location, "undefined variable '" ++ name ++ "'"⟩)
      else do
        let (methodIdxs, st) := allocMethods st.currentEnv st methods
        let c := st.classes.length
        let st := { st with classes := st.classes ++ [(⟨className, methodIdxs⟩ : ClassObj)] }
        set (envDefine st st.currentEnv name (.classRef c))

/-- The per-declaration loop of `visitVariableDeclarationStatement`:
initializer value (default the number `0`), duplicate-in-scope check, then
`define` in the current environment. -/
def varDeclExecI (B : Bindings) : Nat → List (Token × Option Expr) → IM Unit
  | 0, _ => throw .fuelOut
  | _ + 1, [] => pure ()
  | f + 1, (identifier, initializer) :: rest => do
    let variableName := tokenName identifier
    let initializerValue ←
      match initializer with
      | some e => evalExprI B f e
      | none => pure (Value.num 0)
    let st ← get
    if isDefinedInScope st st.currentEnv variableName then
      throw (.loxErr ⟨.runtimeE, identifier.location,
        "identifier '" ++ variableName ++ "' is already declared in current scope"⟩)
    else do
      set (envDefine st st.currentEnv variableName initializerValue)
      varDeclExecI B f rest

/-- The `while` loop body of `visitWhileStatement` (condition re-evaluated
after each iteration). -/
def whileGoI (B : Bindings) : Nat → Expr → Stmt → Value → IM Unit
  | 0, _, _, _ => throw .fuelOut
  | f + 1, condition, body, conditionValue => do
    if truthy conditionValue then do
      evalStmtI B f body
      let cv ← evalExprI B f condition
      whileGoI B f condition body cv
    else pure ()

end

/-- `TSLoxInterpreter.interpret`: each top-level statement is wrapped; a
`TSLoxError` is reported and execution continues with the next statement; an
escaped return unwind is reported as a Runtime error at the `return` token;
anything else propagates (crashes the driver). -/
def interpretLoopI (B : Bindings) : Nat → List Stmt → IM Unit
  | 0, _ => throw .fuelOut
  | _ + 1, [] => pure ()
  | f + 1, s :: rest => do
    (try
      evalStmtI B f s
    catch e =>
      match e with
      | .loxErr le => modify (fun st => { st with reported := st.reported ++ [le] })
      | .returnErr loc _ =>
        modify (fun st =>
          { st with reported := st.reported ++
              [⟨.runtimeE, loc, "cannot use return statement outside a function"⟩] })
      | other => throw other)
    interpretLoopI B f rest

/-- The initial world: one global environment pre-populated with the `clock`
and `print` natives. -/
def initS : S :=
  ⟨[⟨none, [("clock", .nativeClock), ("print", .nativePrint)]⟩], [], [], [], 0, [], []⟩

/-- Run the evaluator on a statement list with a given bindings map. -/
def interpretProgram (B : Bindings) (fuel : Nat) (statements : List Stmt) :
    Except ErrK Unit × S :=
  ((interpretLoopI B fuel statements).run).run initS

/-- The driver pipeline from `src/unnamed/part_007` starting after the
parse: resolve, then interpret (a resolver throw is uncaught and aborts the
whole run). -/
def runProgram (fuel : Nat) (statements : List Stmt) :
    Except RErr (Except ErrK Unit × S) :=
  match resolveProgram fuel statements with
  | .error e => .error e
  | .ok B => .ok (interpretProgram B fuel statements)

/-- The values printed by a terminating run (`none` if the resolver threw). -/
def runOutput (fuel : Nat) (statements : List Stmt) : Option (List Value) :=
  match runProgram fuel statements with
  | .ok (_, st) => some st.output
  | .error _ => none

/-- The runtime errors reported by a terminating run. -/
def runReported (fuel : Nat) (statements : List Stmt) : Option (List LoxErr) :=
  match runProgram fuel statements with
  | .ok (_, st) => some st.reported
  | .error _ => none

/-- The `currentEnvironment` register after a run. -/
def runFinalEnv (fuel : Nat) (statements : List Stmt) : Option Nat :=
  match runProgram fuel statements with
  | .ok (_, st) => some st.currentEnv
  | .error _ => none

/-- The `loxInstance` fields of all function objects after a run. -/
def runFnInstances (fuel : Nat) (statements : List Stmt) : Option (List (Option Nat)) :=
  match runProgram fuel statements with
  | .ok (_, st) => some (st.fns.map (fun fn => fn.loxInstance))
  | .error _ => none

/-- Run a single expression from a given state (used to state evaluator
properties). -/
def evalExprRun (B : Bindings) (fuel : Nat) (st : S) (e : Expr) : Except ErrK Value × S :=
  ((evalExprI B fuel e).run).run st

end TSLox

namespace TSLox

/-! ## Running lemmas for the evaluator monad

`IM` is the exception monad inside the state monad; these lemmas expose one
`bind`/`pure`/`throw`/`get` step of a run to the proofs below. -/

theorem run_bind {α β : Type} (a : IM α) (g : α → IM β) (st : S) :
    ((a >>= g).run).run st =
      match (a.run).run st with
      | (.ok v, st₁) => ((g v).run).run st₁
      | (.error e, st₁) => (.error e, st₁) := by
  simp only [ExceptT.run_bind, StateT.run_bind]
  rcases hr : (a.run).run st with ⟨r, st₁⟩
  cases r <;> rfl

theorem run_pure {α : Type} (v : α) (st : S) :
    ((pure v : IM α).run).run st = (.ok v, st) := rfl

theorem run_throw {α : Type} (e : ErrK) (st : S) :
    ((throw e : IM α).run).run st = (.error e, st) := rfl

theorem run_get (st : S) :
    ((get : IM S).run).run st = (.ok st, st) := rfl

/-! ## The concrete programs of the verified properties

The program texts are fed through the embedded lexer and parser, so every
statement below is about the full front end; the `getD` fallbacks of the two
convenience wrappers are never taken for these programs (each theorem proves
a non-default result). -/

def lexToks (s : String) : List Token :=
  (lexRun 2000 s).getD []

def parseStmts (s : String) : List Stmt :=
  (parseP 300 (lexToks s)).1.toOption.getD []

/-- `{ let a=1; { let a=2; print(a); } print(a); }` -/
def c1Stmts : List Stmt :=
  parseStmts "\x7b let a=1; \x7b let a=2; print(a); \x7d print(a); \x7d"

/-- `class A { greet(){ return "A"; } } class B extends A { greet(){ return super.greet() + "B"; } } print(new B().greet());` -/
def c2Stmts : List Stmt :=
  parseStmts ("class A \x7b greet()\x7b return \"A\"; \x7d \x7d " ++
    "class B extends A \x7b greet()\x7b return super.greet() + \"B\"; \x7d \x7d " ++
    "print(new B().greet());")

def greetNameTok : Token := ⟨.identifier, some (.str "greet"), ⟨1, 1⟩⟩

def aClassTok : Token := ⟨.identifier, some (.str "A"), ⟨1, 1⟩⟩

def bClassTok : Token := ⟨.identifier, some (.str "B"), ⟨1, 1⟩⟩

/-- A runtime world in which class `0` models `A` (owning the single method
object `0`, `greet`) and class `1` models `B`, declared `extends A`: since
`LoxClass` never stores a superclass, `B`'s runtime object holds only its own
(here empty) method list.  Instance `0` is an instance of `B`. -/
def c2LookupState : S :=
  ⟨[⟨none, []⟩, ⟨some 0, []⟩],
   [⟨1, .mk greetNameTok [] [], none⟩],
   [⟨aClassTok, [0]⟩, ⟨bClassTok, []⟩],
   [⟨1, []⟩],
   0, [], []⟩

/-- `print("" ? 1 : 2);` -/
def c5Stmts : List Stmt :=
  parseStmts "print(\"\" ? 1 : 2);"

/-- `function f(){ return; } f();` -/
def c8BareStmts : List Stmt :=
  parseStmts "function f()\x7b return; \x7d f();"

/-- `function f(){ return 1; } f();` -/
def c8ValuedStmts : List Stmt :=
  parseStmts "function f()\x7b return 1; \x7d f();"

/-- `function f(){ return; } { let y = 5; f(); print(y); }` -/
def c8BlockStmts : List Stmt :=
  parseStmts "function f()\x7b return; \x7d \x7b let y = 5; f(); print(y); \x7d"

/-- `class C { getv(){ return this.v; } } let i1 = new C(); let i2 = new C();
i1.v = 1; i2.v = 2; let m = i1.getv; i2.getv; print(m());` -/
def c10Stmts : List Stmt :=
  parseStmts ("class C \x7b getv()\x7b return this.v; \x7d \x7d " ++
    "let i1 = new C(); let i2 = new C(); i1.v = 1; i2.v = 2; " ++
    "let m = i1.getv; i2.getv; print(m());")

def xIdentTok : Token := ⟨.identifier, some (.str "x"), ⟨1, 1⟩⟩

def twoNumTok : Token := ⟨.numberT, some (.num 2), ⟨1, 6⟩⟩

def trueLitE : Expr := .lit 0 ⟨.trueKw, some (.str "TRUE"), ⟨1, 2⟩⟩

def falseLitE : Expr := .lit 0 ⟨.falseKw, some (.str "FALSE"), ⟨1, 2⟩⟩

def bangTok : Token := ⟨.bang, none, ⟨1, 1⟩⟩

def printLitE : Expr := .lit 0 ⟨.identifier, some (.str "print"), ⟨1, 1⟩⟩

def oneLitE : Expr := .lit 1 ⟨.numberT, some (.num 1), ⟨1, 7⟩⟩

def oneLitE2 : Expr := .lit 2 ⟨.numberT, some (.num 1), ⟨1, 10⟩⟩

/-! ## Lexer lemmas for the unterminated block comment -/

/-- Once `current` has passed the end of the source, the block-comment loop
never exits: `peek()` is `''`, the loop guard stays true, and `advance()`
only pushes `current` further — for every fuel the loop is still running. -/
theorem skipBlockComment_eof (f : Nat) :
    ∀ st : LexState, st.source.length ≤ st.current → skipBlockComment f st = none := by
  induction f with
  | zero => intro st _; rfl
  | succ f ih =>
    intro st h
    have hp : peekL st = none := by
      simp only [peekL]
      exact List.getElem?_eq_none h
    simp only [skipBlockComment, hp]
    simp
    exact ih _ (by simp [advanceL]; omega)

/-- On the source `"/*"` the main lexer loop reaches the block-comment scan
with `current` already at the end of the source and therefore never
finishes, for any fuel. -/
theorem lexLoop_unterminated : ∀ f : Nat, lexLoop f (initLexState "/*") = none := by
  intro f
  match f with
  | 0 => rfl
  | f + 1 =>
    have base : skipBlockComment f ⟨"/*".toList, 0, 2, 1, 3, [], []⟩ = none :=
      skipBlockComment_eof f _ (by decide)
    calc lexLoop (f + 1) (initLexState "/*")
        = (match skipBlockComment f ⟨"/*".toList, 0, 2, 1, 3, [], []⟩ with
           | none => none
           | some st => lexLoop f (advanceL (advanceL st).2).2) := rfl
      _ = none := by rw [base]

/-! ## The claims -/

deriving instance DecidableEq for Except

/-- C1: the claim states that the resolver records `hops` equal to the
distance to the *innermost* declaring scope, so that
`{ let a=1; { let a=2; print(a); } print(a); }` prints `2` then `1`.  The
code instead resolves through `Array.findIndex`, which scans the scope stack
from index `0` — the *outermost* scope — so the shadowed inner reference to
`a` (node id `3`, declared in the innermost scope, which would be `hops = 0`)
is recorded with `hops = 1`, and the program prints `1` then `1`. -/
theorem c1_shadowed_reference_resolves_to_outermost_scope :
    resolveProgram 100 c1Stmts = .ok [(3, 1), (5, 0)] ∧
    runOutput 100 c1Stmts = some [.num 1, .num 1] ∧
    runOutput 100 c1Stmts ≠ some [.num 2, .num 1] := by decide!

/-- C2: the claim states that `super.m()` calls the superclass method with
`this` bound to the subclass instance and that property lookup falls back to
superclass methods, the example program printing `AB`.  In the code neither
the resolver nor the evaluator implements `visitSuperExpression` (although
the `ExpressionVisitor` interface declares it), so running the example
crashes in the resolver with a host `TypeError` and nothing is printed; and
`LoxClass` discards the declared superclass, so `getProperty` on an instance
of `B extends A` raises `accessing undefined property` instead of finding
`A`'s method. -/
theorem c2_super_and_inheritance_not_implemented :
    resolveProgram 300 c2Stmts = .error (.hostE "this.visitSuperExpression is not a function") ∧
    runOutput 300 c2Stmts = none ∧
    ((getPropertyI [] 10 0 greetNameTok).run).run c2LookupState =
      (.error (.loxErr ⟨.runtimeE, ⟨1, 1⟩, "accessing undefined property greet on instance"⟩),
       c2LookupState) := by
  refine ⟨by decide!, by decide!, rfl⟩

/-- C3: the claim states that `lex()` terminates with a single trailing
`EOF` token for *every* input, including an unterminated `/*`.  The
block-comment loop is the one scanning loop without an `isEOF()` test: on the
input `"/*"` it never exits, so `lex()` does not terminate and no `EOF`
token is ever emitted (for every fuel the run is still unfinished) — while a
terminated comment lexes fine. -/
theorem c3_lexer_diverges_on_unterminated_block_comment :
    (∀ fuel : Nat, lexRun fuel "/*" = none) ∧
    lexRun 20 "/**/x" = some [⟨.identifier, some (.str "x"), ⟨1, 5⟩⟩, ⟨.eof, none, ⟨1, 6⟩⟩] := by
  constructor
  · intro fuel
    unfold lexRun
    rw [lexLoop_unterminated fuel]
  · decide!

/-- C4: the claim states that a numeric literal's stored `literalValue`
equals the numeric value of the whole lexeme (e.g. `3.25` carries `3.25`).
`eatNumber` scans the fractional part into the lexeme but stores
`parseInt(lexeme)`, which stops at the decimal point: the token for `3.25`
carries `3`, not the lexeme's value `13/4`. -/
theorem c4_number_token_stores_parseInt_of_lexeme :
    lexRun 20 "3.25" = some [⟨.numberT, some (.num 3), ⟨1, 1⟩⟩, ⟨.eof, none, ⟨1, 5⟩⟩] ∧
    decimalLexemeValue "3.25".toList = 13 / 4 ∧
    ((3 : ℚ) = 13 / 4) = False := by decide!

/-- C5 counterexample: the claim states that the empty string is truthy, so
`"" ? 1 : 2` would take the true branch and print `1`.  It prints `2`: the
empty-string literal evaluates to the number `0` (`literalValue || 0`), and
the ternary takes the false branch. -/
theorem c5_empty_string_takes_false_branch :
    runOutput 50 c5Stmts = some [.num 2] ∧
    runOutput 50 c5Stmts ≠ some [.num 1] := by decide!

/-- C5 (amended): a runtime value is falsy iff it is the number `0`, the
empty string, JS `false`, `undefined` or `NaN` — the empty string is falsy,
not truthy (and the empty-string *literal* additionally evaluates to the
number `0`), so a ternary/if on `""` takes the false branch; `None`, `true`
and `false` literals evaluate to the numbers `0`/`1`/`0` and are covered by
the number case. -/
theorem c5_truthiness_characterization :
    (∀ v : Value, truthy v = false ↔
      (v = .num 0 ∨ v = .str "" ∨ v = .jsBool false ∨ v = .undefV ∨ v = .nan)) ∧
    runOutput 50 c5Stmts = some [.num 2] := by
  constructor
  · intro v
    cases v <;> simp [truthy]
  · decide!

/-- C6 counterexample: the claim states that `!` returns `1` on a truthy
operand.  The literal `true` evaluates to the (truthy) number `1`, yet
`!true` evaluates to `0`. -/
theorem c6_bang_on_true_returns_zero :
    evalExprRun [] 10 initS (.unary ⟨1, 1⟩ bangTok trueLitE false) = (.ok (.num 0), initS) ∧
    truthy (.num 1) = true ∧
    Value.num 0 ≠ Value.num 1 := by
  refine ⟨rfl, rfl, by decide⟩

/-- C6 (amended): evaluating unary `!` on an operand that evaluates to `v`
returns the number `0` if `v` is truthy and `1` if `v` is falsy (the claim
had the two results swapped). -/
theorem c6_bang_inverts_truthiness (B : Bindings) (f : Nat) (st st' : S)
    (loc : TokenLocation) (opTok : Token) (inner : Expr) (pf : Bool) (v : Value)
    (hop : opTok.type = .bang)
    (h : evalExprRun B f st inner = (.ok v, st')) :
    evalExprRun B (f + 1) st (.unary loc opTok inner pf) =
      (.ok (if truthy v then Value.num 0 else Value.num 1), st') := by
  unfold evalExprRun at h ⊢
  simp only [evalExprI, hop]
  rw [run_bind, h]
  cases htv : truthy v <;> simp [htv, run_pure]

/-- C6 witness: `!false` evaluates to `1` (the `false` literal evaluates to
the falsy number `0`). -/
theorem c6_bang_inverts_truthiness_witness :
    evalExprRun [] 11 initS (.unary ⟨1, 1⟩ bangTok falseLitE false) = (.ok (.num 1), initS) := by
  have h := c6_bang_inverts_truthiness [] 10 initS initS ⟨1, 1⟩ bangTok falseLitE false
    (.num 0) rfl rfl
  simpa using h

/-- C7: the claim states that all four compound assignments desugar, in
particular that `x *= e;` parses into `x = x * e`.  The `match` list in
`Parser.assignment` omits `MUL_EQ` (its switch case is dead code), so
`x *= 2;` raises the Syntax error `expected ; at end of statement` at the
`*=` token and panic-mode recovery discards the statement, while `x += 2;`,
`x -= 2;` and `x /= 2;` do desugar into an assignment whose rvalue reuses
the very lvalue node (shared node id `0`) and whose synthesized operator
token sits one column past the rvalue's location. -/
theorem c7_mul_compound_assignment_not_parsed :
    (runStatementP 50 (lexToks "x *= 2;")).1 =
      .error (.loxE ⟨.syntaxE, ⟨1, 5⟩, "expected ; at end of statement"⟩) ∧
    (parseP 50 (lexToks "x *= 2;")).2.hasError = true ∧
    (runStatementP 50 (lexToks "x += 2;")).1 =
      .ok (.exprStmt (.assign ⟨1, 1⟩ (.lit 0 xIdentTok)
        (.binary ⟨1, 6⟩ (.lit 0 xIdentTok) ⟨.plus, none, ⟨1, 7⟩⟩ (.lit 1 twoNumTok)))) ∧
    (runStatementP 50 (lexToks "x -= 2;")).1 =
      .ok (.exprStmt (.assign ⟨1, 1⟩ (.lit 0 xIdentTok)
        (.binary ⟨1, 6⟩ (.lit 0 xIdentTok) ⟨.minus, none, ⟨1, 7⟩⟩ (.lit 1 twoNumTok)))) ∧
    (runStatementP 50 (lexToks "x /= 2;")).1 =
      .ok (.exprStmt (.assign ⟨1, 1⟩ (.lit 0 xIdentTok)
        (.binary ⟨1, 6⟩ (.lit 0 xIdentTok) ⟨.slash, none, ⟨1, 7⟩⟩ (.lit 1 twoNumTok)))) := by
  refine ⟨rfl, rfl, rfl, rfl, rfl⟩

/-- C8: the claim states that the current-environment register is restored
after every user-function call, including a bare `return;`.  On a bare
`return;` the catch block of `LoxCallableFn.call` does not restore
`currentEnvironment`: after `function f(){ return; } f();` the register
points at the call-frame environment (heap index `1`), not the global
environment `0` it held before the call — while the valued-return variant
does restore it.  Observable consequence: in
`function f(){ return; } { let y = 5; f(); print(y); }` the `print(y)` after
the call resolves in the dead frame's chain and the run reports
`undefined variable 'y'` with no output. -/
theorem c8_bare_return_leaks_callee_environment :
    runFinalEnv 100 c8BareStmts = some 1 ∧
    initS.currentEnv = 0 ∧
    runFinalEnv 100 c8ValuedStmts = some 0 ∧
    runOutput 100 c8BlockStmts = some [] ∧
    runReported 100 c8BlockStmts =
      some [⟨.runtimeE, ⟨1, 49⟩, "undefined variable 'y'"⟩] := by decide!

/-- C9: evaluating a call whose callee evaluates to a callable checks the
arity *before* touching the arguments: on a mismatch it throws the Runtime
error `expected N args but got M` with the state exactly as the callee
evaluation left it (no argument expression and no body was evaluated); on a
match it evaluates the arguments left to right (`evalArgsI`) from that state
and only then invokes the callable on the results. -/
theorem c9_arity_checked_before_arguments (B : Bindings) (f : Nat) (st st1 : S)
    (loc : TokenLocation) (calle : Expr) (args : List Expr) (v : Value)
    (h1 : evalExprRun B f st calle = (.ok v, st1))
    (h2 : isCallableV v = true) :
    (arityOf st1 v ≠ args.length →
      evalExprRun B (f + 1) st (.fnCall loc calle args) =
        (.error (.loxErr ⟨.runtimeE, calle.location,
          "expected " ++ toString (arityOf st1 v) ++ " args but got " ++ toString args.length⟩),
         st1)) ∧
    (arityOf st1 v = args.length →
      evalExprRun B (f + 1) st (.fnCall loc calle args) =
        (match ((evalArgsI B f args).run).run st1 with
         | (.ok argVals, st2) => ((invokeCallable B f v argVals).run).run st2
         | (.error e, st2) => (.error e, st2))) := by
  unfold evalExprRun at h1 ⊢
  constructor
  · intro hne
    simp only [evalExprI]
    rw [run_bind, h1]
    simp only [h2, if_true]
    rw [run_bind, run_get]
    simp only [ne_eq, hne, not_false_eq_true, if_true]
    rfl
  · intro heq
    simp only [evalExprI]
    rw [run_bind, h1]
    simp only [h2, if_true]
    rw [run_bind, run_get]
    simp only [ne_eq, heq, not_true_eq_false, if_false]
    rw [run_bind]
    rcases hr : ((evalArgsI B f args).run).run st1 with ⟨r, st2⟩
    cases r <;> rfl

/-- C9 witness: calling the arity-1 native `print` with two argument
expressions raises the Runtime error without evaluating them (the state is
unchanged). -/
theorem c9_arity_checked_before_arguments_witness :
    evalExprRun [] 2 initS (.fnCall ⟨1, 1⟩ printLitE [oneLitE, oneLitE2]) =
      (.error (.loxErr ⟨.runtimeE, ⟨1, 1⟩, "expected 1 args but got 2"⟩), initS) := by
  have h := (c9_arity_checked_before_arguments [] 1 initS initS ⟨1, 1⟩ printLitE
    [oneLitE, oneLitE2] .nativePrint rfl rfl).1 (by decide)
  exact h

/-- C10: each class creates its method callables once at declaration time;
`getProperty` *mutates* that shared object's bound instance and returns the
same object.  In the verified program a method value `m` is first obtained
from `i1`, then the same method is merely looked up on `i2`: the single
shared method object (the `fns` heap holds exactly one entry) ends bound to
`i2` (instance index `1`), and calling `m()` executes with `this = i2`,
printing `i2`'s field value `2` rather than `i1`'s `1` — bound methods are
not independent values. -/
theorem c10_method_objects_shared_and_rebindable :
    runOutput 150 c10Stmts = some [.num 2] ∧
    runFnInstances 150 c10Stmts = some [some 1] := by decide!

end TSLox
